import Mathlib

/-!
Verification development for the webos-ipk packager (`build.py`).

The source program is shallowly embedded: Python `str` values are modelled as
lists of Unicode code points (`List Nat`), `bytes` as lists of byte values,
directory trees as a rose tree (`Tree`), and the two archive layers as lists of
entry records.  The `build` orchestrator is modelled with explicit state
threading that records which OS file handles / in-memory streams are currently
open (`BState`), mirroring the `with`-blocks of the source; entry modification
times (`time.time()`) are not modelled, since no property refers to them.
-/

namespace WebosIpk

/-- Python `str`: a sequence of Unicode code points. -/
abbrev PyStr := List Nat

/-- Python `bytes`: a sequence of byte values. -/
abbrev Bytes := List Nat

/-- Convert a Lean string literal to its code-point list (helper for literals). -/
def pstr (s : String) : PyStr := s.toList.map Char.toNat

/-- The error kinds raised by the source: `ValueError` (missing manifest /
undeterminable size), `KeyError` (missing dict key during formatting or
subscripting), `TypeError` (duplicate keyword argument in `str.format`). -/
inductive PyErr where
  | valueError : PyErr
  | keyError : PyErr
  | typeError : PyErr
deriving DecidableEq, Repr

/-- A JSON-style record (the parsed `appinfo.json`): association list from
string keys to string values. -/
abbrev PyDict := List (PyStr × PyStr)

/-- Dictionary lookup, first binding wins (Python dict subscript). -/
def dlookup : PyDict → PyStr → Option PyStr
  | [], _ => none
  | (k, v) :: r, key => if k = key then some v else dlookup r key

/-- UTF-8 encoding of one code point (`str.encode("utf-8")`, scalar values). -/
def utf8Char (c : Nat) : Bytes :=
  if c < 128 then [c]
  else if c < 2048 then [192 + c / 64, 128 + c % 64]
  else if c < 65536 then [224 + c / 4096, 128 + c / 64 % 64, 128 + c % 64]
  else [240 + c / 262144, 128 + c / 4096 % 64, 128 + c / 64 % 64, 128 + c % 64]

/-- UTF-8 encoding of a string. -/
def utf8Encode : PyStr → Bytes
  | [] => []
  | c :: r => utf8Char c ++ utf8Encode r

/-- Python `s.replace("\r\n", "\n")`: left-to-right, non-overlapping. -/
def replaceCRLF : List Nat → List Nat
  | [] => []
  | [c] => [c]
  | c :: c2 :: r =>
      if c = 13 ∧ c2 = 10 then 10 :: replaceCRLF r
      else c :: replaceCRLF (c2 :: r)

/-- Lower-case hexadecimal digit character for a value below 16. -/
def hexDig (d : Nat) : Nat := if d < 10 then 48 + d else 87 + d

/-- The four hex digit characters of `"%04x" % n` for `n < 0x10000`. -/
def hex4 (n : Nat) : List Nat :=
  [hexDig (n / 4096 % 16), hexDig (n / 256 % 16), hexDig (n / 16 % 16), hexDig (n % 16)]

/-- One code point as emitted by `json.dumps` with `ensure_ascii=True`
(CPython `py_encode_basestring_ascii`): `"` and `\` and the short control
escapes get two-character forms, printable ASCII is kept, everything else
becomes `\uXXXX`, with a surrogate pair for code points above `0xFFFF`. -/
def escChar (c : Nat) : List Nat :=
  if c = 34 then [92, 34]
  else if c = 92 then [92, 92]
  else if c = 8 then [92, 98]
  else if c = 9 then [92, 116]
  else if c = 10 then [92, 110]
  else if c = 12 then [92, 102]
  else if c = 13 then [92, 114]
  else if 32 ≤ c ∧ c ≤ 126 then [c]
  else if c < 65536 then 92 :: 117 :: hex4 c
  else 92 :: 117 :: hex4 (55296 + (c - 65536) / 1024) ++ 92 :: 117 :: hex4 (56320 + (c - 65536) % 1024)

/-- JSON string-body escaping (`json.dumps` on the characters of a string). -/
def escape : PyStr → List Nat
  | [] => []
  | c :: r => escChar c ++ escape r

/-- One `"key": "value"` item of `json.dumps(..., indent=2)` output. -/
def dumpsItem (kv : PyStr × PyStr) : List Nat :=
  34 :: escape kv.1 ++ 34 :: 58 :: 32 :: 34 :: escape kv.2 ++ [34]

/-- The item list after the first item of an indent-2 dumped object:
`",\n  item"` repeated, then `"\n}"`. -/
def dumpsRest : List (PyStr × PyStr) → List Nat
  | [] => [10, 125]
  | kv :: rest => 44 :: 10 :: 32 :: 32 :: dumpsItem kv ++ dumpsRest rest

/-- `json.dumps(obj, indent=2)` for a flat object of string fields. -/
def dumpsObjIndent2 : List (PyStr × PyStr) → List Nat
  | [] => [123, 125]
  | kv :: rest => 123 :: 10 :: 32 :: 32 :: dumpsItem kv ++ dumpsRest rest

/-- Decimal digits of a natural number (fuel-structured for kernel reduction). -/
def natStrAux : Nat → Nat → List Nat
  | 0, _ => []
  | fuel + 1, n => if n < 10 then [48 + n] else natStrAux fuel (n / 10) ++ [48 + n % 10]

/-- Python `str(n)` for a natural number. -/
def natStr (n : Nat) : List Nat := natStrAux (n + 1) n

/-- Python `str(i)` for an integer. -/
def intStr : Int → List Nat
  | .ofNat n => natStr n
  | .negSucc n => 45 :: natStr (n + 1)

/-- Split a text into its lines at newline characters (the line structure of
the generated control document). -/
def splitNL : List Nat → List (List Nat)
  | [] => [[]]
  | c :: r =>
      if c = 10 then [] :: splitNL r
      else
        match splitNL r with
        | h :: t => (c :: h) :: t
        | [] => [[c]]

/-- Python `name.split("/")`. -/
def splitSlash : List Nat → List (List Nat)
  | [] => [[]]
  | c :: r =>
      if c = 47 then [] :: splitSlash r
      else
        match splitSlash r with
        | h :: t => (c :: h) :: t
        | [] => [[c]]

/-- Python `"/".join(parts)`. -/
def joinSlash : List PyStr → PyStr
  | [] => []
  | [x] => x
  | x :: r => x ++ 47 :: joinSlash r

/-- The ancestor paths `"/".join(els[:n])` for `n = 1 .. len(els)`
(tar_addfile's directory-synthesis loop, lines 145-146 of `build.py`). -/
def dirPrefixes (els : List PyStr) : List PyStr :=
  (List.range els.length).map (fun i => joinSlash (els.take (i + 1)))

/-- Equivalent recursive presentation of `dirPrefixes` (used for proofs). -/
def initSegs : List PyStr → List PyStr
  | [] => []
  | p :: ps => p :: (initSegs ps).map (fun q => p ++ 47 :: q)

/-- `DEB_VERSION = b"2.0\n"`. -/
def DEB_VERSION : Bytes := pstr ("2.0\n")

/-- `DIRECTORY_SIZE = 4096`. -/
def DIRECTORY_SIZE : Nat := 4096

/-- The text of `CONTROL_TEMPLATE.format(size=size, id=..., version=...)`:
the fixed template of lines 16-26 of `build.py` with the three placeholders
substituted. -/
def ctrlRendered (i v : PyStr) (size : Int) : List Nat :=
  pstr ("Package: ") ++ i ++
  pstr ("\nVersion: ") ++ v ++
  pstr ("\nSection: misc\nPriority: optional\nArchitecture: all\nInstalled-Size: ") ++
  intStr size ++
  pstr ("\nMaintainer: N/A <nobody@example.com>\nDescription: This is a webOS application.\nwebOS-Package-Format-Version: 2\nwebOS-Packager-Version: x.y.x\n")

/-- `gen_control` (lines 74-76): `CONTROL_TEMPLATE.format(size=size, **appinfo)`
raises `TypeError` at the call when `appinfo` itself has a `"size"` key
(duplicate keyword argument), raises `KeyError` when a referenced field is
missing, then normalizes CRLF and encodes as UTF-8. -/
def gen_control (appinfo : PyDict) (size : Int) : Except PyErr Bytes :=
  if (dlookup appinfo (pstr ("size"))).isSome then .error .typeError
  else
    match dlookup appinfo (pstr ("id")), dlookup appinfo (pstr ("version")) with
    | some i, some v => .ok (utf8Encode (replaceCRLF (ctrlRendered i v size)))
    | _, _ => .error .keyError

/-- `gen_packageinfo` (lines 61-71): builds the five-field dict from the
manifest (`KeyError` on a missing field), dumps it with `indent=2`, appends a
newline, normalizes CRLF, encodes UTF-8. -/
def gen_packageinfo (appinfo : PyDict) : Except PyErr Bytes :=
  match dlookup appinfo (pstr ("id")), dlookup appinfo (pstr ("title")),
        dlookup appinfo (pstr ("vendor")), dlookup appinfo (pstr ("version")) with
  | some i, some t, some ve, some vr =>
      .ok (utf8Encode (replaceCRLF (dumpsObjIndent2
        [(pstr ("app"), i), (pstr ("id"), i), (pstr ("loc_name"), t),
         (pstr ("vendor"), ve), (pstr ("version"), vr)] ++ [10])))
  | _, _, _, _ => .error .keyError

/-- A source directory tree: regular files (name, contents) and
subdirectories, in listing order. -/
inductive Tree where
  | node (files : List (PyStr × Bytes)) (dirs : List (PyStr × Tree)) : Tree
deriving Repr

/-- Sum of `st_size` over one directory's file list. -/
def sumFileSizes : List (PyStr × Bytes) → Nat
  | [] => 0
  | f :: r => f.2.length + sumFileSizes r

mutual

/-- `calc_size` (lines 79-89): the `os.walk` fold adds `DIRECTORY_SIZE` per
entry of each step's `dirs` list and each file's `st_size`. -/
def calc_size : Tree → Nat
  | .node fs ds => DIRECTORY_SIZE * ds.length + sumFileSizes fs + calc_sizeL ds

/-- Recursion of `calc_size` over the subdirectory list. -/
def calc_sizeL : List (PyStr × Tree) → Nat
  | [] => 0
  | (_, t) :: r => calc_size t + calc_sizeL r

end

mutual

/-- All regular files of a tree with their `os.path.relpath`-style relative
paths, in `os.walk` top-down order (root's files first, then each subtree). -/
def walkFiles : Tree → List (PyStr × Bytes)
  | .node fs ds => fs ++ walkFilesL ds

/-- Recursion of `walkFiles` over the subdirectory list. -/
def walkFilesL : List (PyStr × Tree) → List (PyStr × Bytes)
  | [] => []
  | (d, t) :: r => (walkFiles t).map (fun pc => (d ++ 47 :: pc.1, pc.2)) ++ walkFilesL r

end

mutual

/-- Total byte size of all regular files in a tree (specification side). -/
def treeFileBytes : Tree → Nat
  | .node fs ds => sumFileSizes fs + treeFileBytesL ds

/-- Recursion of `treeFileBytes` over the subdirectory list. -/
def treeFileBytesL : List (PyStr × Tree) → Nat
  | [] => 0
  | (_, t) :: r => treeFileBytes t + treeFileBytesL r

end

mutual

/-- Number of directories strictly below the root (specification side). -/
def subdirCount : Tree → Nat
  | .node _ ds => ds.length + subdirCountL ds

/-- Recursion of `subdirCount` over the subdirectory list. -/
def subdirCountL : List (PyStr × Tree) → Nat
  | [] => 0
  | (_, t) :: r => subdirCount t + subdirCountL r

end

/-- Number of directories of a tree counting the root itself
(the reading of the claim under test for `calc_size`). -/
def numDirsInclRoot (t : Tree) : Nat := 1 + subdirCount t

/-- An empty tree with no subdirectories. -/
def treeIsEmpty : Tree → Bool
  | .node fs ds => fs.isEmpty && ds.isEmpty

/-- The kinds of handles/streams `build` acquires. -/
inductive HKind where
  | output : HKind
  | manifest : HKind
  | input : HKind
  | bytesio : HKind
deriving DecidableEq, Repr

/-- Resource state threaded through `build`: currently open handles (most
recently opened first) and whether the output file has been created. -/
structure BState where
  opened : List HKind
  created : Bool
deriving DecidableEq, Repr

/-- Initial resource state. -/
def initB : BState := ⟨[], false⟩

/-- A `with`-block: acquire a handle of kind `k`, run the body, release the
handle on both the normal and the error path. -/
def withHandle (k : HKind) (body : BState → Except PyErr α × BState) (s : BState) :
    Except PyErr α × BState :=
  let p := body { s with opened := k :: s.opened }
  (p.1, { p.2 with opened := p.2.opened.erase k })

/-- Line 180: `ArFile(open(output, "wb"), "w")` — the output file is created
and its handle opened; the source never closes it. -/
def openOutput (s : BState) : BState := { s with opened := .output :: s.opened, created := true }

/-- `get_appinfo` (lines 47-54): if `appinfo.json` is absent (`m? = none`)
raise `ValueError` before touching anything; otherwise read it under a
`with open(...)` block.  The parsed manifest stands in for the JSON text. -/
def get_appinfo (m? : Option PyDict) (s : BState) : Except PyErr PyDict × BState :=
  match m? with
  | none => (.error .valueError, s)
  | some d => withHandle .manifest (fun s1 => (.ok d, s1)) s

/-- One entry of a tar stream.  `typ` is the tarfile type byte
(`REGTYPE = 48`, `DIRTYPE = 53`); modification time is not modelled. -/
structure TarEntry where
  name : PyStr
  size : Nat
  mode : Nat
  uid : Nat
  gid : Nat
  typ : Nat
  content : Bytes
deriving DecidableEq, Repr

/-- Payload stored in an `ar` entry: raw bytes, or the gzip-compressed
serialization of a tar stream (kept symbolically). -/
inductive ArData where
  | raw (b : Bytes) : ArData
  | targz (entries : List TarEntry) : ArData
deriving DecidableEq, Repr

/-- `tarfile.REGTYPE` (`b"0"`). -/
def REGTYPE : Nat := 48

/-- `tarfile.DIRTYPE` (`b"5"`). -/
def DIRTYPE : Nat := 53

/-- One entry of an `ar` archive (fixed perms/uid/gid are set by
`ar_addfile`). -/
structure ArEntry where
  name : PyStr
  size : Nat
  perms : Nat
  uid : Nat
  gid : Nat
  data : ArData
deriving DecidableEq, Repr

/-- The duck-typed payload parameter of `ar_addfile`/`tar_addfile`: a string,
an in-memory byte buffer, or a stream (with its seekability, its end position,
and the payload it carries). -/
inductive FileData where
  | str (s : PyStr) : FileData
  | bytes (b : Bytes) : FileData
  | stream (seekable : Bool) (size : Nat) (payload : ArData) : FileData

/-- Whether the payload is a stream that supports neither `len` nor seeking. -/
def seekless : FileData → Bool
  | .stream false _ _ => true
  | _ => false

/-- The shared size-resolution logic of `ar_addfile` (lines 96-109) and
`tar_addfile` (lines 125-138): a `str` is encoded to bytes; for bytes the
length is used when no size is given; for a seekable stream the end position;
otherwise `ValueError`. -/
def resolve_data (data : FileData) (size : Option Nat) : Except PyErr (Nat × ArData) :=
  match data with
  | .str s => let b := utf8Encode s; .ok (size.getD b.length, .raw b)
  | .bytes b => .ok (size.getD b.length, .raw b)
  | .stream seekable endPos payload =>
      match size with
      | some n => .ok (n, payload)
      | none => if seekable then .ok (endPos, payload) else .error .valueError

/-- The byte content a tar entry stores for a resolved payload. -/
def tarBytesOf : ArData → Bytes
  | .raw b => b
  | .targz _ => []

/-- `tar.getnames()`. -/
def tarNames (t : List TarEntry) : List PyStr := t.map (·.name)

/-- The synthesized directory entry of lines 148-155 (`mode=0o777`,
`uid=gid=1000`, `type=DIRTYPE`). -/
def mkDirEntry (p : PyStr) : TarEntry := ⟨p, 0, 511, 1000, 1000, DIRTYPE, []⟩

/-- The directory entries lines 142-155 synthesize for one call: each missing
ancestor path of `name`, shallowest first, checked against the snapshot of
`tar.getnames()`. -/
def tarNewDirs (tar : List TarEntry) (name : PyStr) : List TarEntry :=
  ((dirPrefixes (splitSlash name).dropLast).filter
    (fun p => ¬ p ∈ tarNames tar)).map mkDirEntry

/-- `tar_addfile` (lines 124-167): resolve the payload size, synthesize the
missing ancestor-directory entries (checked against the snapshot of
`tar.getnames()`, shallowest first), then append the file entry
(`mode=0o666`, `uid=gid=1000`). -/
def tar_addfile (tar : List TarEntry) (name : PyStr) (data : FileData)
    (size : Option Nat) : Except PyErr (List TarEntry) :=
  match resolve_data data size with
  | .error e => .error e
  | .ok (n, payload) =>
      .ok (tar ++ tarNewDirs tar name ++ [⟨name, n, 438, 1000, 1000, REGTYPE, tarBytesOf payload⟩])

/-- `ar_addfile` (lines 95-121): resolve the payload size, then append one
entry (`perms=0o666`, `uid=gid=0`). -/
def ar_addfile (ar : List ArEntry) (name : PyStr) (data : FileData)
    (size : Option Nat) : Except PyErr (List ArEntry) :=
  match resolve_data data size with
  | .error e => .error e
  | .ok (n, payload) => .ok (ar ++ [⟨name, n, 438, 0, 0, payload⟩])

/-- Size of the last entry written, if the call succeeded. -/
def lastSizeT (r : Except PyErr (List TarEntry)) : Option Nat :=
  match r with
  | .ok l => l.getLast?.map (·.size)
  | .error _ => none

/-- Size of the last entry written, if the call succeeded. -/
def lastSizeA (r : Except PyErr (List ArEntry)) : Option Nat :=
  match r with
  | .ok l => l.getLast?.map (·.size)
  | .error _ => none

/-- Names of the directory-type entries of a tar stream. -/
def dirNamesOf (t : List TarEntry) : List PyStr :=
  (t.filter (fun e => e.typ == DIRTYPE)).map (·.name)

/-- A sequence of `tar_addfile` calls on one archive. -/
def foldTar : List TarEntry → List (PyStr × FileData × Option Nat) →
    Except PyErr (List TarEntry)
  | t, [] => .ok t
  | t, (n, d, sz) :: r =>
      match tar_addfile t n d sz with
      | .ok t2 => foldTar t2 r
      | .error e => .error e

/-- The data-tar fold of lines 195-205 without the resource state: add each
walked file under `base` from its (seekable) open file handle. -/
def addTreePure (base : PyStr) : List (PyStr × Bytes) → List TarEntry →
    Except PyErr (List TarEntry)
  | [], acc => .ok acc
  | (p, c) :: rest, acc =>
      match tar_addfile acc (base ++ pstr ("/") ++ p) (.stream true c.length (.raw c)) none with
      | .error e => .error e
      | .ok acc2 => addTreePure base rest acc2

/-- Lines 195-205 with resource tracking: each input file is opened under a
`with` block while its entry is added. -/
def addTreeFiles (base : PyStr) : List (PyStr × Bytes) → List TarEntry → BState →
    Except PyErr (List TarEntry) × BState
  | [], acc, s => (.ok acc, s)
  | (p, c) :: rest, acc, s =>
      match withHandle .input (fun s1 =>
        (tar_addfile acc (base ++ pstr ("/") ++ p) (.stream true c.length (.raw c)) none, s1)) s with
      | (.error e, s2) => (.error e, s2)
      | (.ok acc2, s2) => addTreeFiles base rest acc2 s2

/-- The pure result of the control block (lines 184-189): generate the control
document, put it in a fresh tar, append the gzipped tar to the ar archive.
`glen` models the byte length of the gzip serialization, which the source
discovers by seeking the `BytesIO` to its end. -/
def ctrlPure (glen : List TarEntry → Nat) (appinfo : PyDict) (size : Nat)
    (ar : List ArEntry) : Except PyErr (List ArEntry) :=
  match gen_control appinfo (Int.ofNat size) with
  | .error e => .error e
  | .ok cdata =>
      match tar_addfile [] (pstr ("control")) (.bytes cdata) none with
      | .error e => .error e
      | .ok ctrl =>
          ar_addfile ar (pstr ("control.tar.gz")) (.stream true (glen ctrl) (.targz ctrl)) none

/-- Lines 184-189 with the `with BytesIO()` resource scope. -/
def controlBlock (glen : List TarEntry → Nat) (appinfo : PyDict) (size : Nat)
    (ar : List ArEntry) (s : BState) : Except PyErr (List ArEntry) × BState :=
  withHandle .bytesio (fun s1 => (ctrlPure glen appinfo size ar, s1)) s

/-- Lines 207-211: regenerate the packageinfo document, add it to the data
tar, append the gzipped data tar to the ar archive. -/
def dataFinish (glen : List TarEntry → Nat) (appinfo : PyDict) (i : PyStr)
    (ar : List ArEntry) (dat : List TarEntry) : Except PyErr (List ArEntry) :=
  match gen_packageinfo appinfo with
  | .error e => .error e
  | .ok pdata =>
      match tar_addfile dat (pstr ("usr/palm/packages/") ++ i ++ pstr ("/packageinfo.json"))
          (.bytes pdata) none with
      | .error e => .error e
      | .ok dat2 =>
          ar_addfile ar (pstr ("data.tar.gz")) (.stream true (glen dat2) (.targz dat2)) none

/-- Lines 191-211 with the `with BytesIO()` resource scope: look up
`appinfo["id"]` (line 193), walk the source tree adding every regular file
under the install path, finish with the packageinfo entry. -/
def dataBlock (glen : List TarEntry → Nat) (appinfo : PyDict) (T : Tree)
    (ar : List ArEntry) (s : BState) : Except PyErr (List ArEntry) × BState :=
  withHandle .bytesio (fun s1 =>
    match dlookup appinfo (pstr ("id")) with
    | none => (.error .keyError, s1)
    | some i =>
        match addTreeFiles (pstr ("usr/palm/applications/") ++ i) (walkFiles T) [] s1 with
        | (.error e, s2) => (.error e, s2)
        | (.ok dat, s2) => (dataFinish glen appinfo i ar dat, s2)) s

/-- `build` (lines 170-211): read the manifest, compute the size estimate with
the fixed path overheads and the packageinfo length, open the output ar
archive (never closed), then write `debian-binary`, the control tar and the
data tar in that order. -/
def build (glen : List TarEntry → Nat) (T : Tree) (m? : Option PyDict) (s0 : BState) :
    Except PyErr (List ArEntry) × BState :=
  match get_appinfo m? s0 with
  | (.error e, s) => (.error e, s)
  | (.ok appinfo, s) =>
      match gen_packageinfo appinfo with
      | .error e => (.error e, s)
      | .ok pk =>
          let size := calc_size T + 4 * DIRECTORY_SIZE + 2 * DIRECTORY_SIZE + pk.length
          let s1 := openOutput s
          match ar_addfile [] (pstr ("debian-binary")) (.bytes DEB_VERSION) none with
          | .error e => (.error e, s1)
          | .ok ar =>
              match controlBlock glen appinfo size ar s1 with
              | (.error e, s2) => (.error e, s2)
              | (.ok ar2, s2) => dataBlock glen appinfo T ar2 s2

/-- The value computed by the data block (lines 191-211), which is
independent of the resource state: the `with` scopes only govern handle
lifetimes. -/
def dataPure (glen : List TarEntry → Nat) (appinfo : PyDict) (T : Tree)
    (ar : List ArEntry) : Except PyErr (List ArEntry) :=
  match dlookup appinfo (pstr ("id")) with
  | none => .error .keyError
  | some i =>
      match addTreePure (pstr ("usr/palm/applications/") ++ i) (walkFiles T) [] with
      | .error e => .error e
      | .ok dat => dataFinish glen appinfo i ar dat

/-- The archive value `build` computes for a present manifest, with the
resource bookkeeping projected away. -/
def buildPure (glen : List TarEntry → Nat) (T : Tree) (m : PyDict) :
    Except PyErr (List ArEntry) :=
  match gen_packageinfo m with
  | .error e => .error e
  | .ok pk =>
      let size := calc_size T + 4 * DIRECTORY_SIZE + 2 * DIRECTORY_SIZE + pk.length
      match ar_addfile [] (pstr ("debian-binary")) (.bytes DEB_VERSION) none with
      | .error e => .error e
      | .ok ar =>
          match ctrlPure glen m size ar with
          | .error e => .error e
          | .ok ar2 => dataPure glen m T ar2

/-- The ar entries a build result carries (empty on error). -/
def arEntriesOf (r : Except PyErr (List ArEntry)) : List ArEntry :=
  (r.toOption).getD []

/-- The tar entries of the third (`data.tar.gz`) ar entry of a build result. -/
def dataTarOf (r : Except PyErr (List ArEntry)) : List TarEntry :=
  match arEntriesOf r with
  | [_, _, e] =>
      match e.data with
      | .targz t => t
      | .raw _ => []
  | _ => []

/-- A code point Python strings obtained from decoded JSON text carry: a
Unicode scalar value. -/
def validScalar (c : Nat) : Prop := c < 1114112 ∧ ¬ (55296 ≤ c ∧ c < 57344)

instance (c : Nat) : Decidable (validScalar c) := by
  unfold validScalar; infer_instance

/-- All code points of a string are Unicode scalar values. -/
def ValidPStr (s : PyStr) : Prop := ∀ c ∈ s, validScalar c

instance (s : PyStr) : Decidable (ValidPStr s) := by
  unfold ValidPStr; infer_instance

/-- Value of one hexadecimal digit character (either case), as a JSON parser
reads `\uXXXX` escapes. -/
def fromHexD (c : Nat) : Option Nat :=
  if 48 ≤ c ∧ c ≤ 57 then some (c - 48)
  else if 97 ≤ c ∧ c ≤ 102 then some (c - 87)
  else if 65 ≤ c ∧ c ≤ 70 then some (c - 55)
  else none

/-- Value of a four-hex-digit group. -/
def readHex4 (a b c d : Nat) : Option Nat :=
  match fromHexD a, fromHexD b, fromHexD c, fromHexD d with
  | some x, some y, some z, some w => some (x * 4096 + y * 256 + z * 16 + w)
  | _, _, _, _ => none

/-- Decode one `\uXXXX` escape (the input starts right after the `u`),
combining a high surrogate with a following `\uXXXX` low surrogate as
Python's `json` decoder does; a lone surrogate is kept, and a following
`\u` group with bad hex is an error.  `recur` continues the scan. -/
def parseU (recur : List Nat → Option (PyStr × List Nat)) :
    List Nat → Option (PyStr × List Nat)
  | a :: b :: c2 :: d :: r2 =>
      match readHex4 a b c2 d with
      | none => none
      | some h =>
          if 55296 ≤ h ∧ h < 56320 then
            match r2 with
            | 92 :: 117 :: a2 :: b2 :: c3 :: d2 :: r3 =>
                match readHex4 a2 b2 c3 d2 with
                | none => none
                | some l =>
                    if 56320 ≤ l ∧ l < 57344 then
                      (recur r3).map
                        (fun p => ((65536 + (h - 55296) * 1024 + (l - 56320)) :: p.1, p.2))
                    else
                      (recur (92 :: 117 :: a2 :: b2 :: c3 :: d2 :: r3)).map
                        (fun p => (h :: p.1, p.2))
            | 92 :: 117 :: _ => none
            | _ => (recur r2).map (fun p => (h :: p.1, p.2))
          else (recur r2).map (fun p => (h :: p.1, p.2))
  | _ => none

/-- Decode one backslash escape (the input starts right after the
backslash); `recur` continues the scan. -/
def parseEsc (recur : List Nat → Option (PyStr × List Nat)) :
    List Nat → Option (PyStr × List Nat)
  | [] => none
  | e :: r =>
      if e = 34 then (recur r).map (fun p => (34 :: p.1, p.2))
      else if e = 92 then (recur r).map (fun p => (92 :: p.1, p.2))
      else if e = 47 then (recur r).map (fun p => (47 :: p.1, p.2))
      else if e = 98 then (recur r).map (fun p => (8 :: p.1, p.2))
      else if e = 102 then (recur r).map (fun p => (12 :: p.1, p.2))
      else if e = 110 then (recur r).map (fun p => (10 :: p.1, p.2))
      else if e = 114 then (recur r).map (fun p => (13 :: p.1, p.2))
      else if e = 116 then (recur r).map (fun p => (9 :: p.1, p.2))
      else if e = 117 then parseU recur r
      else none

/-- JSON string-body scanner (specification side, follows the behavior of
Python's `json` decoder in strict mode): consumes up to the closing quote,
decoding escapes, combining surrogate pairs, and rejecting raw control
characters.  The fuel argument bounds the number of decoded characters. -/
def parseStrF : Nat → List Nat → Option (PyStr × List Nat)
  | _, [] => none
  | 0, _ => none
  | fuel + 1, c :: rest =>
      if c = 34 then some ([], rest)
      else if c = 92 then parseEsc (parseStrF fuel) rest
      else if c < 32 then none
      else (parseStrF fuel rest).map (fun p => (c :: p.1, p.2))

/-- Skip JSON whitespace. -/
def skipWs : List Nat → List Nat
  | [] => []
  | c :: r => if c = 32 ∨ c = 10 ∨ c = 9 ∨ c = 13 then skipWs r else c :: r

/-- Parse one `key: "value"` member starting at the key's opening quote
(already consumed); after the member, a comma continues via `recur` and a
closing brace ends the object. -/
def parseKV (recur : List Nat → Option (List (PyStr × PyStr) × List Nat))
    (r : List Nat) : Option (List (PyStr × PyStr) × List Nat) :=
  match parseStrF (r.length + 1) r with
  | none => none
  | some (k, r1) =>
      match skipWs r1 with
      | 58 :: r2 =>
          match skipWs r2 with
          | 34 :: r3 =>
              match parseStrF (r3.length + 1) r3 with
              | none => none
              | some (v, r4) =>
                  match skipWs r4 with
                  | 44 :: r5 => (recur r5).map (fun p => ((k, v) :: p.1, p.2))
                  | 125 :: r5 => some ([(k, v)], r5)
                  | _ => none
          | _ => none
      | _ => none

/-- Members of a JSON object with string values: `"key": "value"` pairs
separated by commas, terminated by `}`.  Returns the pairs and the rest of
the input.  The fuel argument bounds the number of members. -/
def parseMems : Nat → List Nat → Option (List (PyStr × PyStr) × List Nat)
  | 0, _ => none
  | fuel + 1, l =>
      match skipWs l with
      | 34 :: r => parseKV (parseMems fuel) r
      | _ => none

/-- Parse a complete JSON document consisting of one flat object with string
fields (the shape `gen_packageinfo` emits), requiring the input be consumed
entirely. -/
def parseObj (l : List Nat) : Option (List (PyStr × PyStr)) :=
  match skipWs l with
  | 123 :: r =>
      match skipWs r with
      | 125 :: r2 => if skipWs r2 = [] then some [] else none
      | _ =>
          match parseMems (r.length + 1) r with
          | some (kvs, rest) => if skipWs rest = [] then some kvs else none
          | none => none
  | _ => none

/-- The members part of a dumped nonempty object: first item, then the
remaining items with their separators and the closing brace. -/
def itemsText : List (PyStr × PyStr) → List Nat
  | [] => []
  | kv :: rest => dumpsItem kv ++ dumpsRest rest

/-- Prepend a newline-free chunk to the first line of a line list
(helper describing `splitNL` on appends). -/
def prepHead (a : List Nat) : List (List Nat) → List (List Nat)
  | h :: t => (a ++ h) :: t
  | [] => [a]

/-! ## Basic lemmas about the resource state -/

theorem withHandle_pure (k : HKind) (r : Except PyErr α) (s : BState) :
    withHandle k (fun s1 => (r, s1)) s = (r, s) := by
  simp [withHandle, List.erase_cons_head]

theorem get_appinfo_some (d : PyDict) (s : BState) :
    get_appinfo (some d) s = (.ok d, s) := by
  simp [get_appinfo, withHandle_pure]

/-! ## C7: missing manifest aborts before output creation -/

/-- C7: if `appinfo.json` is absent from the base directory, `build` fails
with the missing-manifest error (`ValueError`) and terminates with the output
file never created and no handle opened. -/
theorem build_manifest_missing (glen : List TarEntry → Nat) (T : Tree) :
    build glen T none initB = (.error .valueError, ⟨[], false⟩) := rfl

/-! ## C4: size resolution of `ar_addfile` / `tar_addfile` -/

/-- C4: for both archive writers, an in-memory buffer with no explicit size
yields an entry of the buffer's length; a seekable stream with no explicit
size yields an entry sized at the stream's end position; and the call fails
with the size error exactly when no size is given and the payload is a
non-seekable stream. -/
theorem addfile_size_resolution (t : List TarEntry) (a : List ArEntry) (nm : PyStr)
    (b : Bytes) (L : Nat) (pl : ArData) (d : FileData) (sz : Option Nat) :
    lastSizeT (tar_addfile t nm (.bytes b) none) = some b.length ∧
    lastSizeA (ar_addfile a nm (.bytes b) none) = some b.length ∧
    lastSizeT (tar_addfile t nm (.stream true L pl) none) = some L ∧
    lastSizeA (ar_addfile a nm (.stream true L pl) none) = some L ∧
    ((tar_addfile t nm d sz).isOk = false ↔ sz = none ∧ seekless d = true) ∧
    ((ar_addfile a nm d sz).isOk = false ↔ sz = none ∧ seekless d = true) := by
  refine ⟨?_, ?_, ?_, ?_, ?_, ?_⟩
  · simp [tar_addfile, resolve_data, lastSizeT, List.getLast?_concat]
  · simp [ar_addfile, resolve_data, lastSizeA, List.getLast?_concat]
  · simp [tar_addfile, resolve_data, lastSizeT, List.getLast?_concat]
  · simp [ar_addfile, resolve_data, lastSizeA, List.getLast?_concat]
  · cases d with
    | str s => cases sz <;> simp [tar_addfile, resolve_data, seekless, Except.isOk, Except.toBool]
    | bytes b2 => cases sz <;> simp [tar_addfile, resolve_data, seekless, Except.isOk, Except.toBool]
    | stream sk L2 pl2 =>
        cases sk <;> cases sz <;> simp [tar_addfile, resolve_data, seekless, Except.isOk, Except.toBool]
  · cases d with
    | str s => cases sz <;> simp [ar_addfile, resolve_data, seekless, Except.isOk, Except.toBool]
    | bytes b2 => cases sz <;> simp [ar_addfile, resolve_data, seekless, Except.isOk, Except.toBool]
    | stream sk L2 pl2 =>
        cases sk <;> cases sz <;> simp [ar_addfile, resolve_data, seekless, Except.isOk, Except.toBool]

/-! ## C6: generator failure modes -/

/-- C6 (amended): `gen_packageinfo` succeeds exactly when the four manifest
fields it reads are present, whatever other keys the manifest holds; but
`gen_control` additionally fails (duplicate keyword argument `size` in
`str.format`) whenever the manifest itself contains a `"size"` key. -/
theorem generator_failure_modes (m : PyDict) (sz : Int) :
    ((gen_packageinfo m).isOk = true ↔
      ((dlookup m (pstr ("id"))).isSome = true ∧ (dlookup m (pstr ("title"))).isSome = true ∧
       (dlookup m (pstr ("vendor"))).isSome = true ∧
       (dlookup m (pstr ("version"))).isSome = true)) ∧
    ((gen_control m sz).isOk = true ↔
      ((dlookup m (pstr ("id"))).isSome = true ∧ (dlookup m (pstr ("version"))).isSome = true ∧
       dlookup m (pstr ("size")) = none)) := by
  constructor
  · rcases hid : dlookup m (pstr ("id")) with _ | i <;>
      rcases htl : dlookup m (pstr ("title")) with _ | t2 <;>
      rcases hvd : dlookup m (pstr ("vendor")) with _ | ve <;>
      rcases hvr : dlookup m (pstr ("version")) with _ | vr <;>
      simp [gen_packageinfo, hid, htl, hvd, hvr, Except.isOk, Except.toBool]
  · rcases hsz : dlookup m (pstr ("size")) with _ | z <;>
      rcases hid : dlookup m (pstr ("id")) with _ | i <;>
      rcases hvr : dlookup m (pstr ("version")) with _ | vr <;>
      simp [gen_control, hsz, hid, hvr, Except.isOk, Except.toBool]

/-- C6 counterexample: a manifest supplying both fields the control template
reads nonetheless makes `gen_control` fail, because it also carries a
`"size"` key. -/
theorem gen_control_size_key_clash :
    (dlookup [(pstr ("id"), pstr ("a")), (pstr ("version"), pstr ("1")),
      (pstr ("size"), pstr ("x"))] (pstr ("id"))).isSome = true ∧
    (dlookup [(pstr ("id"), pstr ("a")), (pstr ("version"), pstr ("1")),
      (pstr ("size"), pstr ("x"))] (pstr ("version"))).isSome = true ∧
    (gen_control [(pstr ("id"), pstr ("a")), (pstr ("version"), pstr ("1")),
      (pstr ("size"), pstr ("x"))] 12345).isOk = false := by decide

/-! ## C2: the size estimate -/

mutual

theorem calc_size_split : ∀ t : Tree,
    calc_size t = treeFileBytes t + DIRECTORY_SIZE * subdirCount t
  | .node fs ds => by
      rw [calc_size, treeFileBytes, subdirCount, calc_sizeL_split ds]
      simp only [DIRECTORY_SIZE]
      omega

theorem calc_sizeL_split : ∀ ds : List (PyStr × Tree),
    calc_sizeL ds = treeFileBytesL ds + DIRECTORY_SIZE * subdirCountL ds
  | [] => by simp [calc_sizeL, treeFileBytesL, subdirCountL]
  | (d, t) :: r => by
      rw [calc_sizeL, treeFileBytesL, subdirCountL, calc_size_split t, calc_sizeL_split r]
      simp only [DIRECTORY_SIZE]
      omega

end

/-- C2 (amended): `calc_size` sums the byte sizes of all regular files plus
`DIRECTORY_SIZE` per directory strictly below the root (the root itself is
never counted, since `os.walk` lists each directory only inside its parent's
`dirs`); the result is zero exactly when the tree has no subdirectories and
every file is empty. -/
theorem calc_size_correct (t : Tree) :
    calc_size t = treeFileBytes t + DIRECTORY_SIZE * subdirCount t ∧
    (calc_size t = 0 ↔ treeFileBytes t = 0 ∧ subdirCount t = 0) := by
  have h := calc_size_split t
  refine ⟨h, ?_⟩
  rw [h]
  simp only [DIRECTORY_SIZE]
  omega

/-! ## Tar-layer directory synthesis (C3, C10) -/

theorem joinSlash_cons (p : PyStr) (l : List PyStr) (h : l ≠ []) :
    joinSlash (p :: l) = p ++ 47 :: joinSlash l := by
  cases l with
  | nil => exact absurd rfl h
  | cons x r => rfl

theorem dirPrefixes_eq_initSegs : ∀ els, dirPrefixes els = initSegs els
  | [] => rfl
  | p :: ps => by
      unfold dirPrefixes initSegs
      rw [List.length_cons, List.range_succ_eq_map, List.map_cons, List.map_map]
      have h0 : joinSlash ((p :: ps).take (0 + 1)) = p := by simp [joinSlash]
      rw [h0]
      have hcong : ∀ i ∈ List.range ps.length,
          ((fun i => joinSlash ((p :: ps).take (i + 1))) ∘ (· + 1)) i =
          ((fun q => p ++ 47 :: q) ∘ (fun i => joinSlash (ps.take (i + 1)))) i := by
        intro i hi
        simp only [Function.comp_apply, List.take_succ_cons]
        rw [joinSlash_cons]
        intro hnil
        have := List.mem_range.mp hi
        have : (ps.take (i + 1)).length = 0 := by rw [hnil]; rfl
        rw [List.length_take] at this
        omega
      rw [List.map_congr_left hcong, ← List.map_map,
        show (List.map (fun i => joinSlash (ps.take (i + 1))) (List.range ps.length)) =
          dirPrefixes ps from rfl, dirPrefixes_eq_initSegs ps]

theorem initSegs_nodup : ∀ els, (initSegs els).Nodup
  | [] => List.nodup_nil
  | p :: ps => by
      rw [initSegs]
      refine List.nodup_cons.mpr ⟨?_, ?_⟩
      · intro hmem
        rcases List.mem_map.mp hmem with ⟨q, _, hq⟩
        have := congrArg List.length hq
        simp at this
      · refine (initSegs_nodup ps).map ?_
        intro q1 q2 h
        have : (47 :: q1 : List Nat) = 47 :: q2 := by
          have := List.append_cancel_left h
          exact this
        simpa using this

theorem tar_addfile_ok_shape {tar : List TarEntry} {name : PyStr} {data : FileData}
    {size : Option Nat} {t2 : List TarEntry} (h : tar_addfile tar name data size = .ok t2) :
    ∃ n pl, resolve_data data size = .ok (n, pl) ∧
      t2 = tar ++ tarNewDirs tar name ++
        [⟨name, n, 438, 1000, 1000, REGTYPE, tarBytesOf pl⟩] := by
  unfold tar_addfile at h
  cases hres : resolve_data data size with
  | error e => rw [hres] at h; cases h
  | ok pr =>
      cases pr with
      | mk n pl =>
          rw [hres] at h
          cases h
          exact ⟨n, pl, rfl, rfl⟩

theorem dirNamesOf_append (a b : List TarEntry) :
    dirNamesOf (a ++ b) = dirNamesOf a ++ dirNamesOf b := by
  simp [dirNamesOf]

theorem dirNamesOf_mkDirs (l : List PyStr) :
    dirNamesOf (l.map mkDirEntry) = l := by
  induction l with
  | nil => rfl
  | cons p r ih => simp [dirNamesOf, mkDirEntry] at ih ⊢; exact ih

theorem mem_tarNames_of_mem_dirNames {q : PyStr} {A : List TarEntry}
    (h : q ∈ dirNamesOf A) : q ∈ tarNames A := by
  rcases List.mem_map.mp h with ⟨e, he, rfl⟩
  exact List.mem_map.mpr ⟨e, List.mem_of_mem_filter he, rfl⟩

theorem dirNames_nodup_step {A A2 : List TarEntry} {name : PyStr} {data : FileData}
    {size : Option Nat} (hN : (dirNamesOf A).Nodup)
    (h : tar_addfile A name data size = .ok A2) : (dirNamesOf A2).Nodup := by
  rcases tar_addfile_ok_shape h with ⟨n, pl, hres, rfl⟩
  rw [tarNewDirs, dirNamesOf_append, dirNamesOf_append, dirNamesOf_mkDirs]
  have hfile : dirNamesOf [⟨name, n, 438, 1000, 1000, REGTYPE, tarBytesOf pl⟩] = [] := by
    simp [dirNamesOf, REGTYPE, DIRTYPE]
  rw [hfile, List.append_nil]
  rw [List.nodup_append]
  refine ⟨hN, ?_, ?_⟩
  · exact ((dirPrefixes_eq_initSegs _ ▸ initSegs_nodup (splitSlash name).dropLast)).filter _
  · intro q hq hq2
    have hq3 := List.of_mem_filter hq2
    simp only [decide_not, Bool.not_eq_true', decide_eq_false_iff_not] at hq3
    exact hq3 (mem_tarNames_of_mem_dirNames hq)

theorem foldTar_dirNames_nodup : ∀ (calls : List (PyStr × FileData × Option Nat))
    (A0 A : List TarEntry), (dirNamesOf A0).Nodup → foldTar A0 calls = .ok A →
    (dirNamesOf A).Nodup
  | [], A0, A, h0, hf => by
      rw [foldTar] at hf
      cases hf
      exact h0
  | (n, d, sz) :: r, A0, A, h0, hf => by
      rw [foldTar] at hf
      cases hstep : tar_addfile A0 n d sz with
      | error e => rw [hstep] at hf; cases hf
      | ok t2 =>
          rw [hstep] at hf
          exact foldTar_dirNames_nodup r t2 A (dirNames_nodup_step h0 hstep) hf

/-- C3: entries are appended in call order; missing ancestor directories are
synthesized shallowest-first before the entry (the concrete two-call example
yields exactly the claimed name sequences, with no duplicated directory), and
over any call sequence from an empty archive no directory name is ever
written twice. -/
theorem tar_dir_synthesis :
    ((foldTar [] [(pstr ("a/b/c.txt"), .bytes (pstr ("x")), none)]).map tarNames
        = .ok [pstr ("a"), pstr ("a/b"), pstr ("a/b/c.txt")]) ∧
    ((foldTar [] [(pstr ("a/b/c.txt"), .bytes (pstr ("x")), none),
        (pstr ("a/b/d.txt"), .bytes (pstr ("y")), none)]).map tarNames
        = .ok [pstr ("a"), pstr ("a/b"), pstr ("a/b/c.txt"), pstr ("a/b/d.txt")]) ∧
    (∀ (A : List TarEntry) (name : PyStr) (d : FileData) (sz : Option Nat)
        (A2 : List TarEntry), tar_addfile A name d sz = .ok A2 →
        A2.take A.length = A) ∧
    (∀ (calls : List (PyStr × FileData × Option Nat)) (A : List TarEntry),
        foldTar [] calls = .ok A → (dirNamesOf A).Nodup) := by
  refine ⟨rfl, rfl, ?_, ?_⟩
  · intro A name d sz A2 h
    rcases tar_addfile_ok_shape h with ⟨n, pl, hres, rfl⟩
    rw [List.append_assoc, List.take_left]
  · intro calls A h
    exact foldTar_dirNames_nodup calls [] A (by simp [dirNamesOf]) h

/-- Witness for C3: the invariant and the order-preservation clause applied
to the concrete two-call example. -/
theorem tar_dir_synthesis_witness :
    (dirNamesOf ((foldTar [] [(pstr ("a/b/c.txt"), .bytes (pstr ("x")), none),
        (pstr ("a/b/d.txt"), .bytes (pstr ("y")), none)]).toOption.getD [])).Nodup ∧
    ((tar_addfile [] (pstr ("a/b/c.txt")) (.bytes (pstr ("x"))) none).toOption.getD []).take 0
      = [] :=
  ⟨tar_dir_synthesis.2.2.2
      [(pstr ("a/b/c.txt"), .bytes (pstr ("x")), none),
       (pstr ("a/b/d.txt"), .bytes (pstr ("y")), none)]
      ((foldTar [] [(pstr ("a/b/c.txt"), .bytes (pstr ("x")), none),
        (pstr ("a/b/d.txt"), .bytes (pstr ("y")), none)]).toOption.getD []) rfl,
   tar_dir_synthesis.2.2.1 [] (pstr ("a/b/c.txt")) (.bytes (pstr ("x"))) none
      ((tar_addfile [] (pstr ("a/b/c.txt")) (.bytes (pstr ("x"))) none).toOption.getD []) rfl⟩

/-- C10: the duplicate check of the directory synthesis is keyed on all
existing entry names, whatever their type: if any entry named `p` is already
in the archive, adding a name nested under `p` writes no directory entry
named `p`. -/
theorem tar_dupcheck_any_type (A : List TarEntry) (p x : PyStr) (d : FileData)
    (sz : Option Nat) (A2 : List TarEntry) (hp : p ∈ tarNames A)
    (h : tar_addfile A (p ++ pstr ("/") ++ x) d sz = .ok A2) :
    (A2.drop A.length).countP (fun e => e.typ == DIRTYPE && e.name == p) = 0 := by
  rcases tar_addfile_ok_shape h with ⟨n, pl, hres, rfl⟩
  rw [List.append_assoc, List.drop_left]
  rw [List.countP_eq_zero]
  intro e he
  rcases List.mem_append.mp he with hdir | hfile
  · rw [tarNewDirs] at hdir
    rcases List.mem_map.mp hdir with ⟨q, hq, rfl⟩
    have hq2 := List.of_mem_filter hq
    simp only [decide_not, Bool.not_eq_true', decide_eq_false_iff_not] at hq2
    simp only [mkDirEntry, Bool.and_eq_true, beq_iff_eq]
    rintro ⟨-, rfl⟩
    exact hq2 hp
  · rcases List.mem_singleton.mp hfile with rfl
    simp [REGTYPE, DIRTYPE]

/-- Witness for C10: an archive already holding a regular file named `a`
gains no directory entry `a` when `a/b.txt` is appended. -/
theorem tar_dupcheck_any_type_witness :
    ((((tar_addfile [⟨pstr ("a"), 0, 438, 1000, 1000, REGTYPE, []⟩] (pstr ("a/b.txt"))
        (.bytes []) none).toOption.getD []).drop 1).countP
      (fun e => e.typ == DIRTYPE && e.name == pstr ("a"))) = 0 :=
  tar_dupcheck_any_type [⟨pstr ("a"), 0, 438, 1000, 1000, REGTYPE, []⟩]
    (pstr ("a")) (pstr ("b.txt")) (.bytes []) none _ (by decide) rfl

/-! ## C9: the control document -/

theorem natStrAux_mem : ∀ (fuel n c : Nat), c ∈ natStrAux fuel n → 48 ≤ c ∧ c ≤ 57
  | 0, n, c, h => absurd h (List.not_mem_nil c)
  | fuel + 1, n, c, h => by
      rw [natStrAux] at h
      by_cases hn : n < 10
      · rw [if_pos hn] at h
        rcases List.mem_singleton.mp h with rfl
        omega
      · rw [if_neg hn] at h
        rcases List.mem_append.mp h with h2 | h2
        · exact natStrAux_mem fuel (n / 10) c h2
        · rcases List.mem_singleton.mp h2 with rfl
          have : n % 10 < 10 := Nat.mod_lt n (by omega)
          omega

theorem intStr_mem (sz : Int) (c : Nat) (h : c ∈ intStr sz) :
    c = 45 ∨ (48 ≤ c ∧ c ≤ 57) := by
  cases sz with
  | ofNat n => exact Or.inr (natStrAux_mem _ _ _ h)
  | negSucc n =>
      rcases List.mem_cons.mp h with rfl | h2
      · exact Or.inl rfl
      · exact Or.inr (natStrAux_mem _ _ _ h2)

theorem replaceCRLF_eq_self : ∀ l : List Nat, 13 ∉ l → replaceCRLF l = l
  | [], _ => rfl
  | [c], _ => rfl
  | c :: c2 :: r, h => by
      rw [replaceCRLF, if_neg, replaceCRLF_eq_self (c2 :: r) (fun hm => h (List.mem_cons_of_mem c hm))]
      rintro ⟨rfl, -⟩
      exact h (List.mem_cons_self 13 (c2 :: r))

theorem splitNL_cons_10 (l : List Nat) : splitNL (10 :: l) = [] :: splitNL l := by
  rw [splitNL, if_pos rfl]

theorem splitNL_ne_nil : ∀ l : List Nat, splitNL l ≠ []
  | [] => by simp [splitNL]
  | c :: r => by
      rw [splitNL]
      by_cases h : c = 10
      · rw [if_pos h]; simp
      · rw [if_neg h]
        cases hs : splitNL r with
        | nil => simp
        | cons a t => simp

theorem splitNL_cons_ne (c : Nat) (l : List Nat) (h : c ≠ 10) :
    splitNL (c :: l) = prepHead [c] (splitNL l) := by
  rw [splitNL, if_neg h]
  cases hs : splitNL l with
  | nil => exact absurd hs (splitNL_ne_nil l)
  | cons a t => rfl

theorem prepHead_prepHead (a b : List Nat) (x : List (List Nat)) :
    prepHead a (prepHead b x) = prepHead (a ++ b) x := by
  cases x <;> simp [prepHead]

theorem splitNL_append_no10 : ∀ (a l : List Nat), (∀ c ∈ a, c ≠ 10) →
    splitNL (a ++ l) = prepHead a (splitNL l)
  | [], l, _ => by
      cases hs : splitNL l with
      | nil => exact absurd hs (splitNL_ne_nil l)
      | cons x t => simp [prepHead, hs]
  | c :: r, l, h => by
      rw [List.cons_append, splitNL_cons_ne c (r ++ l) (h c (List.mem_cons_self c r)),
        splitNL_append_no10 r l (fun d hd => h d (List.mem_cons_of_mem c hd)),
        prepHead_prepHead]
      rfl

theorem ctrl_no13 (i v : PyStr) (sz : Int) (hi13 : 13 ∉ i) (hv13 : 13 ∉ v) :
    13 ∉ ctrlRendered i v sz := by
  intro hc
  simp only [ctrlRendered, List.mem_append] at hc
  rcases hc with ((((((h | h) | h) | h) | h) | h) | h)
  · exact (by decide : (13 : Nat) ∉ pstr ("Package: ")) h
  · exact hi13 h
  · exact (by decide : (13 : Nat) ∉ pstr ("\nVersion: ")) h
  · exact hv13 h
  · exact (by decide : (13 : Nat) ∉
      pstr ("\nSection: misc\nPriority: optional\nArchitecture: all\nInstalled-Size: ")) h
  · rcases intStr_mem sz 13 h with h2 | h2 <;> omega
  · exact (by decide : (13 : Nat) ∉
      pstr ("\nMaintainer: N/A <nobody@example.com>\nDescription: This is a webOS application.\nwebOS-Package-Format-Version: 2\nwebOS-Packager-Version: x.y.x\n")) h

theorem ctrl_lines (i v : PyStr) (sz : Int) (hi10 : 10 ∉ i) (hv10 : 10 ∉ v) :
    splitNL (ctrlRendered i v sz) =
      [pstr ("Package: ") ++ i, pstr ("Version: ") ++ v, pstr ("Section: misc"),
       pstr ("Priority: optional"), pstr ("Architecture: all"),
       pstr ("Installed-Size: ") ++ intStr sz,
       pstr ("Maintainer: N/A <nobody@example.com>"),
       pstr ("Description: This is a webOS application."),
       pstr ("webOS-Package-Format-Version: 2"),
       pstr ("webOS-Packager-Version: x.y.x"), []] := by
  have e2 : pstr ("\nVersion: ") = 10 :: pstr ("Version: ") := rfl
  have e3 : pstr ("\nSection: misc\nPriority: optional\nArchitecture: all\nInstalled-Size: ") =
      10 :: pstr ("Section: misc") ++ 10 :: pstr ("Priority: optional") ++
      10 :: pstr ("Architecture: all") ++ 10 :: pstr ("Installed-Size: ") := rfl
  have e4 : pstr ("\nMaintainer: N/A <nobody@example.com>\nDescription: This is a webOS application.\nwebOS-Package-Format-Version: 2\nwebOS-Packager-Version: x.y.x\n") =
      10 :: pstr ("Maintainer: N/A <nobody@example.com>") ++
      10 :: pstr ("Description: This is a webOS application.") ++
      10 :: pstr ("webOS-Package-Format-Version: 2") ++
      10 :: pstr ("webOS-Packager-Version: x.y.x") ++ [10] := rfl
  have hIS : ∀ c ∈ intStr sz, c ≠ 10 := by
    intro c hc
    rcases intStr_mem sz c hc with h2 | h2 <;> omega
  rw [ctrlRendered, e2, e3, e4]
  simp only [List.append_assoc, List.cons_append]
  rw [splitNL_append_no10 _ _ (by decide), splitNL_append_no10 _ _ (fun c hc => by
      intro h10; exact hi10 (h10 ▸ hc)),
    splitNL_cons_10,
    splitNL_append_no10 _ _ (by decide), splitNL_append_no10 _ _ (fun c hc => by
      intro h10; exact hv10 (h10 ▸ hc)),
    splitNL_cons_10,
    splitNL_append_no10 _ _ (by decide), splitNL_cons_10,
    splitNL_append_no10 _ _ (by decide), splitNL_cons_10,
    splitNL_append_no10 _ _ (by decide), splitNL_cons_10,
    splitNL_append_no10 _ _ (by decide), splitNL_append_no10 _ _ hIS,
    splitNL_cons_10,
    splitNL_append_no10 _ _ (by decide), splitNL_cons_10,
    splitNL_append_no10 _ _ (by decide), splitNL_cons_10,
    splitNL_append_no10 _ _ (by decide), splitNL_cons_10,
    splitNL_append_no10 _ _ (by decide), splitNL_cons_10]
  simp [splitNL, prepHead]

/-- C9 (amended): for every manifest supplying `id` and `version` and not
carrying a `"size"` key, and every integer size, provided `id` and `version`
contain no newline and no carriage-return character, the first two lines of
the produced control text are exactly `Package: {id}` and `Version: {version}`
and the line `Installed-Size: {size}` occurs in it. -/
theorem gen_control_lines (m : PyDict) (sz : Int) (i v : PyStr)
    (hid : dlookup m (pstr ("id")) = some i)
    (hver : dlookup m (pstr ("version")) = some v)
    (hsize : dlookup m (pstr ("size")) = none)
    (hi10 : 10 ∉ i) (hi13 : 13 ∉ i) (hv10 : 10 ∉ v) (hv13 : 13 ∉ v) :
    gen_control m sz = .ok (utf8Encode (ctrlRendered i v sz)) ∧
    (splitNL (ctrlRendered i v sz)).take 2 =
      [pstr ("Package: ") ++ i, pstr ("Version: ") ++ v] ∧
    (pstr ("Installed-Size: ") ++ intStr sz) ∈ splitNL (ctrlRendered i v sz) := by
  refine ⟨?_, ?_, ?_⟩
  · rw [gen_control, if_neg (by simp [hsize]), hid, hver]
    show Except.ok (utf8Encode (replaceCRLF (ctrlRendered i v sz))) = _
    rw [replaceCRLF_eq_self _ (ctrl_no13 i v sz hi13 hv13)]
  · rw [ctrl_lines i v sz hi10 hv10]
    rfl
  · rw [ctrl_lines i v sz hi10 hv10]
    simp

/-- Witness for C9 at the claim's concrete instance. -/
theorem gen_control_lines_witness :
    gen_control [(pstr ("id"), pstr ("com.example.app")), (pstr ("version"), pstr ("1.0.0"))]
        12345 =
      .ok (utf8Encode (ctrlRendered (pstr ("com.example.app")) (pstr ("1.0.0")) 12345)) ∧
    (splitNL (ctrlRendered (pstr ("com.example.app")) (pstr ("1.0.0")) 12345)).take 2 =
      [pstr ("Package: ") ++ pstr ("com.example.app"), pstr ("Version: ") ++ pstr ("1.0.0")] ∧
    (pstr ("Installed-Size: ") ++ intStr 12345) ∈
      splitNL (ctrlRendered (pstr ("com.example.app")) (pstr ("1.0.0")) 12345) :=
  gen_control_lines [(pstr ("id"), pstr ("com.example.app")),
      (pstr ("version"), pstr ("1.0.0"))] 12345
    (pstr ("com.example.app")) (pstr ("1.0.0")) (by decide) (by decide) (by decide)
    (by decide) (by decide) (by decide) (by decide)

/-- C9 counterexample: for the manifest whose id is the two-line string
`a\nb`, the first two lines of the control output are `Package: a` and `b`,
not `Package: a\nb` and `Version: 1` as the claim states for every
manifest. -/
theorem gen_control_claim_false :
    (splitNL ((gen_control [(pstr ("id"), pstr ("a\nb")), (pstr ("version"), pstr ("1"))]
        0).toOption.getD [])).take 2 = [pstr ("Package: a"), pstr ("b")] ∧
    (splitNL ((gen_control [(pstr ("id"), pstr ("a\nb")), (pstr ("version"), pstr ("1"))]
        0).toOption.getD [])).take 2 ≠
      [pstr ("Package: a\nb"), pstr ("Version: 1")] := by decide

/-! ## The build pipeline (C1, C5) -/

theorem tar_addfile_stream_eq (t : List TarEntry) (nm : PyStr) (L : Nat) (c : Bytes) :
    tar_addfile t nm (.stream true L (.raw c)) none =
      .ok (t ++ tarNewDirs t nm ++ [⟨nm, L, 438, 1000, 1000, REGTYPE, c⟩]) := rfl

theorem tar_addfile_bytes_eq (t : List TarEntry) (nm : PyStr) (b : Bytes) :
    tar_addfile t nm (.bytes b) none =
      .ok (t ++ tarNewDirs t nm ++ [⟨nm, b.length, 438, 1000, 1000, REGTYPE, b⟩]) := rfl

theorem ar_addfile_stream_eq (a : List ArEntry) (nm : PyStr) (L : Nat) (pl : ArData) :
    ar_addfile a nm (.stream true L pl) none = .ok (a ++ [⟨nm, L, 438, 0, 0, pl⟩]) := rfl

theorem addTreeFiles_eq (base : PyStr) : ∀ (files : List (PyStr × Bytes))
    (acc : List TarEntry) (s : BState),
    addTreeFiles base files acc s = (addTreePure base files acc, s)
  | [], acc, s => rfl
  | (p, c) :: rest, acc, s => by
      simp only [addTreeFiles, addTreePure]
      rw [withHandle_pure]
      cases h : tar_addfile acc (base ++ pstr ("/") ++ p) (.stream true c.length (.raw c)) none with
      | error e => rfl
      | ok acc2 => exact addTreeFiles_eq base rest acc2 s

theorem controlBlock_eq (glen : List TarEntry → Nat) (a : PyDict) (size : Nat)
    (ar : List ArEntry) (s : BState) :
    controlBlock glen a size ar s = (ctrlPure glen a size ar, s) := by
  unfold controlBlock
  exact withHandle_pure _ _ _

theorem dataBlock_eq (glen : List TarEntry → Nat) (a : PyDict) (T : Tree)
    (ar : List ArEntry) (s : BState) :
    dataBlock glen a T ar s = (dataPure glen a T ar, s) := by
  unfold dataBlock dataPure withHandle
  cases hid : dlookup a (pstr ("id")) with
  | none => simp [List.erase_cons_head]
  | some i =>
      simp only []
      rw [addTreeFiles_eq]
      cases hat : addTreePure (pstr ("usr/palm/applications/") ++ i) (walkFiles T) [] with
      | error e => simp [List.erase_cons_head]
      | ok dat => simp [List.erase_cons_head]

theorem build_some_eq (glen : List TarEntry → Nat) (T : Tree) (m : PyDict) (s0 : BState) :
    build glen T (some m) s0 =
      (buildPure glen T m,
       match gen_packageinfo m with
       | .error _ => s0
       | .ok _ => openOutput s0) := by
  unfold build buildPure
  rw [get_appinfo_some]
  simp only []
  cases hpk : gen_packageinfo m with
  | error e => rfl
  | ok pk =>
      simp only []
      rw [show ar_addfile [] (pstr ("debian-binary")) (.bytes DEB_VERSION) none =
        .ok [⟨pstr ("debian-binary"), 4, 438, 0, 0, .raw DEB_VERSION⟩] from rfl]
      simp only []
      rw [controlBlock_eq]
      cases hcp : ctrlPure glen m
          (calc_size T + 4 * DIRECTORY_SIZE + 2 * DIRECTORY_SIZE + pk.length)
          [⟨pstr ("debian-binary"), 4, 438, 0, 0, .raw DEB_VERSION⟩] with
      | error e => rfl
      | ok ar2 =>
          simp only []
          rw [dataBlock_eq]

/-- C5 (amended): the in-memory streams and the manifest and input file
handles are all released on every path, but the output archive handle opened
at line 180 is not: after any `build` run, every handle still open is the
output handle, and on successful completion the output handle is still
open. -/
theorem build_resource_state (glen : List TarEntry → Nat) (T : Tree) (m? : Option PyDict) :
    ((build glen T m? initB).2.opened.all (fun k => k == HKind.output) = true) ∧
    ((build glen T m? initB).1.isOk = true →
      (build glen T m? initB).2.opened = [HKind.output]) := by
  cases m? with
  | none => exact ⟨rfl, fun h => Bool.noConfusion h⟩
  | some m =>
      rw [build_some_eq]
      cases hpk : gen_packageinfo m with
      | error e =>
          have hbp : buildPure glen T m = .error e := by rw [buildPure, hpk]
          rw [hbp]
          exact ⟨rfl, fun h => Bool.noConfusion h⟩
      | ok pk => exact ⟨rfl, fun _ => rfl⟩

/-- C5 counterexample: a successful concrete build returns with a handle
still open (the output archive handle), contradicting the claim that every
handle is closed before control returns. -/
theorem build_leaves_output_open :
    (build (fun _ => 0) (Tree.node [] [])
        (some [(pstr ("id"), pstr ("x")), (pstr ("title"), pstr ("T")),
          (pstr ("vendor"), pstr ("V")), (pstr ("version"), pstr ("1"))]) initB).1.isOk
      = true ∧
    (build (fun _ => 0) (Tree.node [] [])
        (some [(pstr ("id"), pstr ("x")), (pstr ("title"), pstr ("T")),
          (pstr ("vendor"), pstr ("V")), (pstr ("version"), pstr ("1"))]) initB).2.opened
      ≠ [] := by decide

/-- Witness for C5 at a successful concrete build. -/
theorem build_resource_state_witness :
    (build (fun _ => 0) (Tree.node [] [])
        (some [(pstr ("id"), pstr ("x")), (pstr ("title"), pstr ("T")),
          (pstr ("vendor"), pstr ("V")), (pstr ("version"), pstr ("1"))]) initB).2.opened
      = [HKind.output] :=
  (build_resource_state (fun _ => 0) (Tree.node [] [])
      (some [(pstr ("id"), pstr ("x")), (pstr ("title"), pstr ("T")),
        (pstr ("vendor"), pstr ("V")), (pstr ("version"), pstr ("1"))])).2 (by decide)

theorem addTreePure_spec (base : PyStr) : ∀ (files : List (PyStr × Bytes))
    (acc : List TarEntry),
    ∃ dat, addTreePure base files acc = .ok dat ∧
      (∀ e ∈ acc, e ∈ dat) ∧
      ∀ pc ∈ files, ∃ e ∈ dat, e.name = base ++ pstr ("/") ++ pc.1 ∧
        e.typ = REGTYPE ∧ e.size = pc.2.length
  | [], acc => ⟨acc, rfl, fun e he => he, by simp⟩
  | (p, c) :: rest, acc => by
      simp only [addTreePure]
      rw [tar_addfile_stream_eq]
      obtain ⟨dat, hok, hsub, hmem⟩ := addTreePure_spec base rest
        (acc ++ tarNewDirs acc (base ++ pstr ("/") ++ p) ++
          [⟨base ++ pstr ("/") ++ p, c.length, 438, 1000, 1000, REGTYPE, c⟩])
      refine ⟨dat, hok, ?_, ?_⟩
      · intro e he
        exact hsub e (by simp [he])
      · intro pc hpc
        rcases List.mem_cons.mp hpc with rfl | h2
        · refine ⟨⟨base ++ pstr ("/") ++ p, c.length, 438, 1000, 1000, REGTYPE, c⟩,
            hsub _ ?_, rfl, rfl, rfl⟩
          simp
        · exact hmem pc h2

/-- C1: for every source tree and valid manifest (the four read fields
present, no `size` key), `build` produces an archive of exactly three entries
in order `debian-binary` (4 bytes, content `2.0\n`), `control.tar.gz`,
`data.tar.gz`; the data tar holds every regular file of the tree under
`usr/palm/applications/{id}/` with its exact byte length, plus the generated
`usr/palm/packages/{id}/packageinfo.json`. -/
theorem build_end_to_end (glen : List TarEntry → Nat) (T : Tree) (m : PyDict)
    (i t2 ve vr : PyStr)
    (hid : dlookup m (pstr ("id")) = some i)
    (htl : dlookup m (pstr ("title")) = some t2)
    (hvd : dlookup m (pstr ("vendor")) = some ve)
    (hvr : dlookup m (pstr ("version")) = some vr)
    (hsz : dlookup m (pstr ("size")) = none) :
    (arEntriesOf (build glen T (some m) initB).1).map (fun e => e.name) =
      [pstr ("debian-binary"), pstr ("control.tar.gz"), pstr ("data.tar.gz")] ∧
    (arEntriesOf (build glen T (some m) initB).1).head? =
      some ⟨pstr ("debian-binary"), 4, 438, 0, 0, .raw (pstr ("2.0\n"))⟩ ∧
    ((walkFiles T).all (fun pc =>
      (dataTarOf (build glen T (some m) initB).1).any (fun e =>
        e.name == pstr ("usr/palm/applications/") ++ i ++ pstr ("/") ++ pc.1 &&
        e.typ == REGTYPE && e.size == pc.2.length)) = true) ∧
    ((dataTarOf (build glen T (some m) initB).1).any (fun e =>
      e.name == pstr ("usr/palm/packages/") ++ i ++ pstr ("/packageinfo.json") &&
      e.typ == REGTYPE) = true) := by
  obtain ⟨pk, hpk⟩ : ∃ pk, gen_packageinfo m = .ok pk :=
    ⟨_, by rw [gen_packageinfo, hid, htl, hvd, hvr]⟩
  obtain ⟨cd, hcd⟩ : ∃ cd, gen_control m
      (Int.ofNat (calc_size T + 4 * DIRECTORY_SIZE + 2 * DIRECTORY_SIZE + pk.length)) =
      .ok cd :=
    ⟨_, by rw [gen_control, if_neg (by simp [hsz]), hid, hvr]⟩
  obtain ⟨dat, hdok, hsub, hdmem⟩ :=
    addTreePure_spec (pstr ("usr/palm/applications/") ++ i) (walkFiles T) []
  have hr : (build glen T (some m) initB).1 =
      .ok ([⟨pstr ("debian-binary"), 4, 438, 0, 0, .raw DEB_VERSION⟩] ++
        [⟨pstr ("control.tar.gz"),
          glen ([] ++ tarNewDirs [] (pstr ("control")) ++
            [⟨pstr ("control"), cd.length, 438, 1000, 1000, REGTYPE, cd⟩]), 438, 0, 0,
          .targz ([] ++ tarNewDirs [] (pstr ("control")) ++
            [⟨pstr ("control"), cd.length, 438, 1000, 1000, REGTYPE, cd⟩])⟩] ++
        [⟨pstr ("data.tar.gz"),
          glen (dat ++ tarNewDirs dat (pstr ("usr/palm/packages/") ++ i ++
              pstr ("/packageinfo.json")) ++
            [⟨pstr ("usr/palm/packages/") ++ i ++ pstr ("/packageinfo.json"),
              pk.length, 438, 1000, 1000, REGTYPE, pk⟩]), 438, 0, 0,
          .targz (dat ++ tarNewDirs dat (pstr ("usr/palm/packages/") ++ i ++
              pstr ("/packageinfo.json")) ++
            [⟨pstr ("usr/palm/packages/") ++ i ++ pstr ("/packageinfo.json"),
              pk.length, 438, 1000, 1000, REGTYPE, pk⟩])⟩]) := by
    rw [build_some_eq]
    simp only []
    rw [buildPure, hpk]
    simp only []
    rw [show ar_addfile [] (pstr ("debian-binary")) (.bytes DEB_VERSION) none =
      .ok [⟨pstr ("debian-binary"), 4, 438, 0, 0, .raw DEB_VERSION⟩] from rfl]
    simp only []
    rw [ctrlPure, hcd]
    simp only []
    rw [tar_addfile_bytes_eq]
    simp only []
    rw [ar_addfile_stream_eq]
    simp only []
    rw [dataPure, hid]
    simp only []
    rw [hdok]
    simp only []
    rw [dataFinish, hpk]
    simp only []
    rw [tar_addfile_bytes_eq]
    simp only []
    rw [ar_addfile_stream_eq]
  rw [hr]
  refine ⟨by simp [arEntriesOf, Except.toOption],
    by simp [arEntriesOf, Except.toOption, DEB_VERSION], ?_, ?_⟩
  · rw [List.all_eq_true]
    intro pc hpc
    obtain ⟨e, he, hname, htyp, hsizeE⟩ := hdmem pc hpc
    rw [List.any_eq_true]
    refine ⟨e, ?_, ?_⟩
    · simp [dataTarOf, arEntriesOf, Except.toOption, he]
    · simp only [Bool.and_eq_true, beq_iff_eq]
      exact ⟨⟨hname, htyp⟩, hsizeE⟩
  · rw [List.any_eq_true]
    refine ⟨⟨pstr ("usr/palm/packages/") ++ i ++ pstr ("/packageinfo.json"),
        pk.length, 438, 1000, 1000, REGTYPE, pk⟩, ?_, ?_⟩
    · simp [dataTarOf, arEntriesOf, Except.toOption]
    · simp

/-- Witness for C1 at the spec's end-to-end example: manifest id `x.y`,
version `0.1`, one ten-byte `index.html`. -/
theorem build_end_to_end_witness :
    (arEntriesOf (build (fun _ => 0)
        (Tree.node [(pstr ("index.html"), pstr ("aaaaaaaaaa"))] [])
        (some [(pstr ("id"), pstr ("x.y")), (pstr ("title"), pstr ("T")),
          (pstr ("vendor"), pstr ("V")), (pstr ("version"), pstr ("0.1"))]) initB).1).map
      (fun e => e.name) =
      [pstr ("debian-binary"), pstr ("control.tar.gz"), pstr ("data.tar.gz")] ∧
    (arEntriesOf (build (fun _ => 0)
        (Tree.node [(pstr ("index.html"), pstr ("aaaaaaaaaa"))] [])
        (some [(pstr ("id"), pstr ("x.y")), (pstr ("title"), pstr ("T")),
          (pstr ("vendor"), pstr ("V")), (pstr ("version"), pstr ("0.1"))]) initB).1).head? =
      some ⟨pstr ("debian-binary"), 4, 438, 0, 0, .raw (pstr ("2.0\n"))⟩ ∧
    ((walkFiles (Tree.node [(pstr ("index.html"), pstr ("aaaaaaaaaa"))] [])).all (fun pc =>
      (dataTarOf (build (fun _ => 0)
          (Tree.node [(pstr ("index.html"), pstr ("aaaaaaaaaa"))] [])
          (some [(pstr ("id"), pstr ("x.y")), (pstr ("title"), pstr ("T")),
            (pstr ("vendor"), pstr ("V")), (pstr ("version"), pstr ("0.1"))]) initB).1).any
        (fun e =>
          e.name == pstr ("usr/palm/applications/") ++ pstr ("x.y") ++ pstr ("/") ++ pc.1 &&
          e.typ == REGTYPE && e.size == pc.2.length)) = true) ∧
    ((dataTarOf (build (fun _ => 0)
        (Tree.node [(pstr ("index.html"), pstr ("aaaaaaaaaa"))] [])
        (some [(pstr ("id"), pstr ("x.y")), (pstr ("title"), pstr ("T")),
          (pstr ("vendor"), pstr ("V")), (pstr ("version"), pstr ("0.1"))]) initB).1).any
      (fun e =>
        e.name == pstr ("usr/palm/packages/") ++ pstr ("x.y") ++ pstr ("/packageinfo.json") &&
        e.typ == REGTYPE) = true) :=
  build_end_to_end (fun _ => 0)
    (Tree.node [(pstr ("index.html"), pstr ("aaaaaaaaaa"))] [])
    [(pstr ("id"), pstr ("x.y")), (pstr ("title"), pstr ("T")),
      (pstr ("vendor"), pstr ("V")), (pstr ("version"), pstr ("0.1"))]
    (pstr ("x.y")) (pstr ("T")) (pstr ("V")) (pstr ("0.1"))
    (by decide) (by decide) (by decide) (by decide) (by decide)

/-! ## C8: the packageinfo document round-trips through a JSON parser -/

theorem hexDig_range (d : Nat) (h : d < 16) : 48 ≤ hexDig d ∧ hexDig d ≤ 102 := by
  unfold hexDig
  split <;> omega

theorem hex4_mem (n b : Nat) (h : b ∈ hex4 n) : 48 ≤ b ∧ b ≤ 102 := by
  simp only [hex4, List.mem_cons, List.not_mem_nil, or_false] at h
  rcases h with rfl | rfl | rfl | rfl <;>
    exact hexDig_range _ (Nat.mod_lt _ (by omega))

theorem escChar_mem (c b : Nat) (h : b ∈ escChar c) : b < 128 ∧ b ≠ 13 ∧ b ≠ 10 := by
  unfold escChar at h
  split_ifs at h with h1 h2 h3 h4 h5 h6 h7 h8 h9
  · simp only [List.mem_cons, List.not_mem_nil, or_false] at h
    rcases h with rfl | rfl <;> omega
  · simp only [List.mem_cons, List.not_mem_nil, or_false] at h
    rcases h with rfl | rfl <;> omega
  · simp only [List.mem_cons, List.not_mem_nil, or_false] at h
    rcases h with rfl | rfl <;> omega
  · simp only [List.mem_cons, List.not_mem_nil, or_false] at h
    rcases h with rfl | rfl <;> omega
  · simp only [List.mem_cons, List.not_mem_nil, or_false] at h
    rcases h with rfl | rfl <;> omega
  · simp only [List.mem_cons, List.not_mem_nil, or_false] at h
    rcases h with rfl | rfl <;> omega
  · simp only [List.mem_cons, List.not_mem_nil, or_false] at h
    rcases h with rfl | rfl <;> omega
  · simp only [List.mem_cons, List.not_mem_nil, or_false] at h
    rcases h with rfl
    omega
  · simp only [List.mem_cons] at h
    rcases h with rfl | rfl | h
    · omega
    · omega
    · have := hex4_mem _ _ h
      omega
  · simp only [List.mem_append, List.mem_cons] at h
    rcases h with (rfl | rfl | h) | (rfl | rfl | h)
    · omega
    · omega
    · have := hex4_mem _ _ h
      omega
    · omega
    · omega
    · have := hex4_mem _ _ h
      omega

theorem escape_mem : ∀ (s : PyStr) (b : Nat), b ∈ escape s → b < 128 ∧ b ≠ 13 ∧ b ≠ 10
  | [], _, h => absurd h (List.not_mem_nil _)
  | c :: r, b, h => by
      rw [escape] at h
      rcases List.mem_append.mp h with h2 | h2
      · exact escChar_mem c b h2
      · exact escape_mem r b h2

theorem escape_length : ∀ s : PyStr, s.length ≤ (escape s).length
  | [] => Nat.le_refl 0
  | c :: r => by
      rw [escape, List.length_append, List.length_cons]
      have h1 : 1 ≤ (escChar c).length := by
        unfold escChar
        split_ifs <;> simp [hex4]
      have h2 := escape_length r
      omega

theorem utf8_ascii : ∀ l : List Nat, (∀ b ∈ l, b < 128) → utf8Encode l = l
  | [], _ => rfl
  | c :: r, h => by
      rw [utf8Encode, utf8Char, if_pos (h c (List.mem_cons_self c r)),
        utf8_ascii r (fun b hb => h b (List.mem_cons_of_mem c hb))]
      rfl

theorem fromHexD_hexDig : ∀ d : Nat, d < 16 → fromHexD (hexDig d) = some d := by decide

theorem readHex4_hex4 (n : Nat) (h : n < 65536) :
    readHex4 (hexDig (n / 4096 % 16)) (hexDig (n / 256 % 16)) (hexDig (n / 16 % 16))
      (hexDig (n % 16)) = some n := by
  rw [readHex4, fromHexD_hexDig _ (Nat.mod_lt _ (by omega)),
    fromHexD_hexDig _ (Nat.mod_lt _ (by omega)),
    fromHexD_hexDig _ (Nat.mod_lt _ (by omega)),
    fromHexD_hexDig _ (Nat.mod_lt _ (by omega))]
  show some (n / 4096 % 16 * 4096 + n / 256 % 16 * 256 + n / 16 % 16 * 16 + n % 16) = some n
  have hval : n / 4096 % 16 * 4096 + n / 256 % 16 * 256 + n / 16 % 16 * 16 + n % 16 = n := by
    omega
  rw [hval]

theorem parseStrF_quote (f : Nat) (l : List Nat) :
    parseStrF (f + 1) (34 :: l) = some ([], l) := rfl

theorem parseStrF_backslash (f : Nat) (l : List Nat) :
    parseStrF (f + 1) (92 :: l) = parseEsc (parseStrF f) l := rfl

theorem parseEsc_esc34 (recur : List Nat → Option (PyStr × List Nat)) (l : List Nat) :
    parseEsc recur (34 :: l) = (recur l).map (fun p => (34 :: p.1, p.2)) := rfl

theorem parseEsc_esc92 (recur : List Nat → Option (PyStr × List Nat)) (l : List Nat) :
    parseEsc recur (92 :: l) = (recur l).map (fun p => (92 :: p.1, p.2)) := rfl

theorem parseEsc_esc98 (recur : List Nat → Option (PyStr × List Nat)) (l : List Nat) :
    parseEsc recur (98 :: l) = (recur l).map (fun p => (8 :: p.1, p.2)) := rfl

theorem parseEsc_esc116 (recur : List Nat → Option (PyStr × List Nat)) (l : List Nat) :
    parseEsc recur (116 :: l) = (recur l).map (fun p => (9 :: p.1, p.2)) := rfl

theorem parseEsc_esc110 (recur : List Nat → Option (PyStr × List Nat)) (l : List Nat) :
    parseEsc recur (110 :: l) = (recur l).map (fun p => (10 :: p.1, p.2)) := rfl

theorem parseEsc_esc102 (recur : List Nat → Option (PyStr × List Nat)) (l : List Nat) :
    parseEsc recur (102 :: l) = (recur l).map (fun p => (12 :: p.1, p.2)) := rfl

theorem parseEsc_esc114 (recur : List Nat → Option (PyStr × List Nat)) (l : List Nat) :
    parseEsc recur (114 :: l) = (recur l).map (fun p => (13 :: p.1, p.2)) := rfl

theorem parseEsc_u (recur : List Nat → Option (PyStr × List Nat)) (l : List Nat) :
    parseEsc recur (117 :: l) = parseU recur l := rfl

theorem parseStrF_print (f : Nat) (l : List Nat) (c : Nat)
    (h1 : ¬ c = 34) (h2 : ¬ c = 92) (h3 : ¬ c < 32) :
    parseStrF (f + 1) (c :: l) = (parseStrF f l).map (fun p => (c :: p.1, p.2)) := by
  rw [parseStrF.eq_def]
  try simp only []
  rw [if_neg h1, if_neg h2, if_neg h3]

theorem parseU_nonsur (recur : List Nat → Option (PyStr × List Nat)) (l : List Nat)
    (a b c2 d n : Nat) (hr : readHex4 a b c2 d = some n)
    (hns : ¬ (55296 ≤ n ∧ n < 56320)) :
    parseU recur (a :: b :: c2 :: d :: l) = (recur l).map (fun p => (n :: p.1, p.2)) := by
  rw [parseU.eq_def]
  try simp only []
  rw [hr]
  try simp only []
  rw [if_neg hns]

theorem parseU_sur (recur : List Nat → Option (PyStr × List Nat)) (l : List Nat)
    (a b c2 d a2 b2 c3 d2 hn ln : Nat)
    (hr1 : readHex4 a b c2 d = some hn) (hs1 : 55296 ≤ hn ∧ hn < 56320)
    (hr2 : readHex4 a2 b2 c3 d2 = some ln) (hs2 : 56320 ≤ ln ∧ ln < 57344) :
    parseU recur (a :: b :: c2 :: d :: 92 :: 117 :: a2 :: b2 :: c3 :: d2 :: l) =
      (recur l).map (fun p => ((65536 + (hn - 55296) * 1024 + (ln - 56320)) :: p.1, p.2)) := by
  rw [parseU.eq_def]
  try simp only []
  rw [hr1]
  try simp only []
  rw [if_pos hs1]
  try simp only []
  rw [hr2]
  try simp only []
  rw [if_pos hs2]

theorem escChar_print (c : Nat) (h1 : 32 ≤ c) (h2 : c ≤ 126) (h3 : ¬ c = 34)
    (h4 : ¬ c = 92) : escChar c = [c] := by
  unfold escChar
  split_ifs <;> first | rfl | (exfalso; omega)

theorem escChar_u (c : Nat) (h3 : ¬ c = 34) (h4 : ¬ c = 92) (h5 : ¬ c = 8)
    (h6 : ¬ c = 9) (h7 : ¬ c = 10) (h8 : ¬ c = 12) (h9 : ¬ c = 13)
    (hpr : ¬ (32 ≤ c ∧ c ≤ 126)) (hlt : c < 65536) :
    escChar c = 92 :: 117 :: hex4 c := by
  unfold escChar
  split_ifs
  rfl

theorem escChar_astral (c : Nat) (h : 65536 ≤ c) :
    escChar c = 92 :: 117 :: hex4 (55296 + (c - 65536) / 1024) ++
      92 :: 117 :: hex4 (56320 + (c - 65536) % 1024) := by
  unfold escChar
  split_ifs <;> first | rfl | (exfalso; omega)

theorem parseStr_escape : ∀ (s : PyStr) (rest : List Nat) (fuel : Nat),
    ValidPStr s → s.length < fuel →
    parseStrF fuel (escape s ++ 34 :: rest) = some (s, rest)
  | [], rest, fuel, _, hf => by
      cases fuel with
      | zero => omega
      | succ f =>
          rw [escape, List.nil_append]
          exact parseStrF_quote f rest
  | c :: s2, rest, fuel, hv, hf => by
      cases fuel with
      | zero => omega
      | succ f =>
          have hvc : validScalar c := hv c (List.mem_cons_self c s2)
          have hvs : ValidPStr s2 := fun d hd => hv d (List.mem_cons_of_mem c hd)
          have hfs : s2.length < f := by
            rw [List.length_cons] at hf
            omega
          have ih := parseStr_escape s2 rest f hvs hfs
          rw [escape, List.append_assoc]
          by_cases hc34 : c = 34
          · subst hc34
            rw [show escChar 34 ++ (escape s2 ++ 34 :: rest) =
                92 :: (34 :: (escape s2 ++ 34 :: rest)) from rfl,
              parseStrF_backslash, parseEsc_esc34 _ _, ih]
            rfl
          · by_cases hc92 : c = 92
            · subst hc92
              rw [show escChar 92 ++ (escape s2 ++ 34 :: rest) =
                  92 :: (92 :: (escape s2 ++ 34 :: rest)) from rfl,
                parseStrF_backslash, parseEsc_esc92 _ _, ih]
              rfl
            · by_cases hc8 : c = 8
              · subst hc8
                rw [show escChar 8 ++ (escape s2 ++ 34 :: rest) =
                    92 :: (98 :: (escape s2 ++ 34 :: rest)) from rfl,
                  parseStrF_backslash, parseEsc_esc98 _ _, ih]
                rfl
              · by_cases hc9 : c = 9
                · subst hc9
                  rw [show escChar 9 ++ (escape s2 ++ 34 :: rest) =
                      92 :: (116 :: (escape s2 ++ 34 :: rest)) from rfl,
                    parseStrF_backslash, parseEsc_esc116 _ _, ih]
                  rfl
                · by_cases hc10 : c = 10
                  · subst hc10
                    rw [show escChar 10 ++ (escape s2 ++ 34 :: rest) =
                        92 :: (110 :: (escape s2 ++ 34 :: rest)) from rfl,
                      parseStrF_backslash, parseEsc_esc110 _ _, ih]
                    rfl
                  · by_cases hc12 : c = 12
                    · subst hc12
                      rw [show escChar 12 ++ (escape s2 ++ 34 :: rest) =
                          92 :: (102 :: (escape s2 ++ 34 :: rest)) from rfl,
                        parseStrF_backslash, parseEsc_esc102 _ _, ih]
                      rfl
                    · by_cases hc13 : c = 13
                      · subst hc13
                        rw [show escChar 13 ++ (escape s2 ++ 34 :: rest) =
                            92 :: (114 :: (escape s2 ++ 34 :: rest)) from rfl,
                          parseStrF_backslash, parseEsc_esc114 _ _, ih]
                        rfl
                      · by_cases hpr : 32 ≤ c ∧ c ≤ 126
                        · rw [escChar_print c hpr.1 hpr.2 hc34 hc92,
                            show ([c] : List Nat) ++ (escape s2 ++ 34 :: rest) =
                              c :: (escape s2 ++ 34 :: rest) from rfl,
                            parseStrF_print f _ c hc34 hc92 (by omega), ih]
                          rfl
                        · by_cases hlt : c < 65536
                          · rw [escChar_u c hc34 hc92 hc8 hc9 hc10 hc12 hc13 hpr hlt,
                              show (92 :: 117 :: hex4 c) ++ (escape s2 ++ 34 :: rest) =
                                92 :: (117 :: (hex4 c ++ (escape s2 ++ 34 :: rest))) from rfl,
                              parseStrF_backslash, parseEsc_u, hex4,
                              show ([hexDig (c / 4096 % 16), hexDig (c / 256 % 16),
                                  hexDig (c / 16 % 16), hexDig (c % 16)] : List Nat) ++
                                  (escape s2 ++ 34 :: rest) =
                                hexDig (c / 4096 % 16) :: hexDig (c / 256 % 16) ::
                                  hexDig (c / 16 % 16) :: hexDig (c % 16) ::
                                  (escape s2 ++ 34 :: rest) from rfl,
                              parseU_nonsur _ _ _ _ _ _ c (readHex4_hex4 c hlt)
                                (by rcases hvc with ⟨-, hnosur⟩; omega), ih]
                            rfl
                          · have hup : c < 1114112 := hvc.1
                            rw [escChar_astral c (by omega),
                              show (92 :: 117 :: hex4 (55296 + (c - 65536) / 1024) ++
                                    92 :: 117 :: hex4 (56320 + (c - 65536) % 1024)) ++
                                  (escape s2 ++ 34 :: rest) =
                                92 :: (117 :: (hex4 (55296 + (c - 65536) / 1024) ++
                                  (92 :: 117 :: (hex4 (56320 + (c - 65536) % 1024) ++
                                    (escape s2 ++ 34 :: rest))))) by
                                  simp [List.cons_append, List.append_assoc],
                              parseStrF_backslash, parseEsc_u, hex4, hex4]
                            rw [show ([hexDig ((55296 + (c - 65536) / 1024) / 4096 % 16),
                                  hexDig ((55296 + (c - 65536) / 1024) / 256 % 16),
                                  hexDig ((55296 + (c - 65536) / 1024) / 16 % 16),
                                  hexDig ((55296 + (c - 65536) / 1024) % 16)] : List Nat) ++
                                92 :: 117 :: (([hexDig ((56320 + (c - 65536) % 1024) / 4096 % 16),
                                  hexDig ((56320 + (c - 65536) % 1024) / 256 % 16),
                                  hexDig ((56320 + (c - 65536) % 1024) / 16 % 16),
                                  hexDig ((56320 + (c - 65536) % 1024) % 16)] : List Nat) ++
                                  (escape s2 ++ 34 :: rest)) =
                              hexDig ((55296 + (c - 65536) / 1024) / 4096 % 16) ::
                                hexDig ((55296 + (c - 65536) / 1024) / 256 % 16) ::
                                hexDig ((55296 + (c - 65536) / 1024) / 16 % 16) ::
                                hexDig ((55296 + (c - 65536) / 1024) % 16) ::
                                92 :: 117 ::
                                hexDig ((56320 + (c - 65536) % 1024) / 4096 % 16) ::
                                hexDig ((56320 + (c - 65536) % 1024) / 256 % 16) ::
                                hexDig ((56320 + (c - 65536) % 1024) / 16 % 16) ::
                                hexDig ((56320 + (c - 65536) % 1024) % 16) ::
                                (escape s2 ++ 34 :: rest) from rfl]
                            rw [parseU_sur _ _ _ _ _ _ _ _ _ _
                                (55296 + (c - 65536) / 1024) (56320 + (c - 65536) % 1024)
                                (readHex4_hex4 _ (by omega))
                                (by omega)
                                (readHex4_hex4 _ (by
                                  have := Nat.mod_lt (c - 65536) (y := 1024) (by omega)
                                  omega))
                                (by
                                  have := Nat.mod_lt (c - 65536) (y := 1024) (by omega)
                                  omega)]
                            have hval : 65536 + (55296 + (c - 65536) / 1024 - 55296) * 1024 +
                                (56320 + (c - 65536) % 1024 - 56320) = c := by
                              have := Nat.div_add_mod (c - 65536) 1024
                              omega
                            rw [hval, ih]
                            rfl

theorem skipWs_lead (l : List Nat) : skipWs (10 :: 32 :: 32 :: 34 :: l) = 34 :: l := rfl

theorem skipWs_58 (l : List Nat) : skipWs (58 :: l) = 58 :: l := rfl

theorem skipWs_32_34 (l : List Nat) : skipWs (32 :: 34 :: l) = 34 :: l := rfl

theorem skipWs_44 (l : List Nat) : skipWs (44 :: l) = 44 :: l := rfl

theorem skipWs_123 (l : List Nat) : skipWs (123 :: l) = 123 :: l := rfl

theorem items_shape (k v : PyStr) (rest : List (PyStr × PyStr)) (tail : List Nat) :
    itemsText ((k, v) :: rest) ++ tail =
      34 :: (escape k ++ 34 :: 58 :: 32 :: 34 :: (escape v ++ 34 :: (dumpsRest rest ++ tail))) := by
  rw [itemsText, dumpsItem]
  simp [List.cons_append, List.append_assoc]

theorem skipWs_items (k v : PyStr) (rest : List (PyStr × PyStr)) (tail : List Nat) :
    skipWs (10 :: 32 :: 32 :: (itemsText ((k, v) :: rest) ++ tail)) =
      34 :: (escape k ++ 34 :: 58 :: 32 :: 34 :: (escape v ++ 34 :: (dumpsRest rest ++ tail))) := by
  rw [show (10 : Nat) :: 32 :: 32 :: (itemsText ((k, v) :: rest) ++ tail) =
    10 :: 32 :: 32 :: (34 :: (escape k ++ 34 :: 58 :: 32 :: 34 ::
      (escape v ++ 34 :: (dumpsRest rest ++ tail)))) from by rw [items_shape]]
  rfl

theorem restShape (k2 v2 : PyStr) (rest2 : List (PyStr × PyStr)) (tail : List Nat) :
    dumpsRest ((k2, v2) :: rest2) ++ tail =
      44 :: 10 :: 32 :: 32 :: (itemsText ((k2, v2) :: rest2) ++ tail) := by
  rw [dumpsRest, itemsText]
  simp [List.cons_append, List.append_assoc]

theorem parseKV_spec (recur : List Nat → Option (List (PyStr × PyStr) × List Nat))
    (k v : PyStr) (Z : List Nat) (hk : ValidPStr k) (hv2 : ValidPStr v) :
    parseKV recur (escape k ++ 34 :: 58 :: 32 :: 34 :: (escape v ++ 34 :: Z)) =
      match skipWs Z with
      | 44 :: r5 => (recur r5).map (fun p => ((k, v) :: p.1, p.2))
      | 125 :: r5 => some ([(k, v)], r5)
      | _ => none := by
  rw [parseKV]
  rw [parseStr_escape k _ _ hk (by
    have := escape_length k
    simp [List.length_append]
    omega)]
  try simp only []
  rw [skipWs_58]
  try simp only []
  rw [skipWs_32_34]
  try simp only []
  rw [parseStr_escape v Z _ hv2 (by
    have := escape_length v
    simp [List.length_append]
    omega)]

theorem parseMems_dumps : ∀ (rest : List (PyStr × PyStr)) (k v : PyStr) (tail : List Nat)
    (fuel : Nat), ValidPStr k → ValidPStr v →
    (∀ kvx ∈ rest, ValidPStr kvx.1 ∧ ValidPStr kvx.2) → rest.length < fuel →
    parseMems fuel (10 :: 32 :: 32 :: (itemsText ((k, v) :: rest) ++ tail)) =
      some ((k, v) :: rest, tail)
  | rest, k, v, tail, 0, _, _, _, hf => absurd hf (by omega)
  | [], k, v, tail, F + 1, hk, hv2, _, _ => by
      rw [parseMems.eq_def]
      try simp only []
      rw [skipWs_items]
      try simp only []
      rw [parseKV_spec _ k v _ hk hv2]
      rw [show dumpsRest ([] : List (PyStr × PyStr)) ++ tail = 10 :: 125 :: tail from rfl]
      rw [show skipWs (10 :: 125 :: tail) = 125 :: tail from rfl]
  | (k2, v2) :: rest2, k, v, tail, F + 1, hk, hv2, hrest, hf => by
      rw [parseMems.eq_def]
      try simp only []
      rw [skipWs_items]
      try simp only []
      rw [parseKV_spec _ k v _ hk hv2]
      rw [restShape, skipWs_44]
      try simp only []
      rw [parseMems_dumps rest2 k2 v2 tail F
        (hrest (k2, v2) (List.mem_cons_self _ _)).1
        (hrest (k2, v2) (List.mem_cons_self _ _)).2
        (fun kvx hkvx => hrest kvx (List.mem_cons_of_mem _ hkvx))
        (by rw [List.length_cons] at hf; omega)]
      rfl

theorem itemsText_length (k v : PyStr) (rest : List (PyStr × PyStr)) :
    rest.length ≤ (itemsText ((k, v) :: rest)).length := by
  have h : ∀ r2 : List (PyStr × PyStr), r2.length ≤ (dumpsRest r2).length := by
    intro r2
    induction r2 with
    | nil => simp [dumpsRest]
    | cons kv2 r3 ih =>
        rw [dumpsRest]
        simp only [List.length_cons, List.length_append]
        omega
  rw [itemsText]
  simp only [List.length_append]
  have := h rest
  omega

theorem parseObj_dumps (k v : PyStr) (rest : List (PyStr × PyStr))
    (hk : ValidPStr k) (hv2 : ValidPStr v)
    (hrest : ∀ kvx ∈ rest, ValidPStr kvx.1 ∧ ValidPStr kvx.2) :
    parseObj (dumpsObjIndent2 ((k, v) :: rest) ++ [10]) = some ((k, v) :: rest) := by
  rw [show dumpsObjIndent2 ((k, v) :: rest) ++ [10] =
    123 :: (10 :: 32 :: 32 :: (itemsText ((k, v) :: rest) ++ [10])) from by
      rw [dumpsObjIndent2, itemsText]
      simp [List.cons_append, List.append_assoc]]
  rw [parseObj, skipWs_123]
  try simp only []
  rw [skipWs_items]
  try simp only []
  rw [parseMems_dumps rest k v [10] _ hk hv2 hrest (by
    simp only [List.length_cons, List.length_append]
    have := itemsText_length k v rest
    omega)]
  rfl

theorem dumpsItem_mem (kv : PyStr × PyStr) (b : Nat) (h : b ∈ dumpsItem kv) :
    b < 128 ∧ b ≠ 13 := by
  rw [dumpsItem] at h
  simp only [List.mem_cons, List.mem_append, List.not_mem_nil, or_false] at h
  have h2 : b = 34 ∨ b = 58 ∨ b = 32 ∨ b ∈ escape kv.1 ∨ b ∈ escape kv.2 := by tauto
  rcases h2 with rfl | rfl | rfl | h2 | h2
  · omega
  · omega
  · omega
  · exact ⟨(escape_mem _ _ h2).1, (escape_mem _ _ h2).2.1⟩
  · exact ⟨(escape_mem _ _ h2).1, (escape_mem _ _ h2).2.1⟩

theorem dumpsRest_mem : ∀ (rest : List (PyStr × PyStr)) (b : Nat), b ∈ dumpsRest rest →
    b < 128 ∧ b ≠ 13
  | [], b, h => by
      simp only [dumpsRest, List.mem_cons, List.not_mem_nil, or_false] at h
      rcases h with rfl | rfl <;> omega
  | kv :: rest2, b, h => by
      rw [dumpsRest] at h
      simp only [List.mem_cons, List.mem_append] at h
      have h2 : b = 44 ∨ b = 10 ∨ b = 32 ∨ b ∈ dumpsItem kv ∨ b ∈ dumpsRest rest2 := by
        tauto
      rcases h2 with rfl | rfl | rfl | h2 | h2
      · omega
      · omega
      · omega
      · exact dumpsItem_mem kv b h2
      · exact dumpsRest_mem rest2 b h2

theorem dumpsObj_mem (kvs : List (PyStr × PyStr)) (b : Nat) (h : b ∈ dumpsObjIndent2 kvs) :
    b < 128 ∧ b ≠ 13 := by
  cases kvs with
  | nil =>
      simp only [dumpsObjIndent2, List.mem_cons, List.not_mem_nil, or_false] at h
      rcases h with rfl | rfl <;> omega
  | cons kv rest =>
      rw [dumpsObjIndent2] at h
      simp only [List.mem_cons, List.mem_append] at h
      have h2 : b = 123 ∨ b = 10 ∨ b = 32 ∨ b ∈ dumpsItem kv ∨ b ∈ dumpsRest rest := by
        tauto
      rcases h2 with rfl | rfl | rfl | h2 | h2
      · omega
      · omega
      · omega
      · exact dumpsItem_mem kv b h2
      · exact dumpsRest_mem rest b h2

theorem dumpsRest_getLast : ∀ rest : List (PyStr × PyStr),
    (dumpsRest rest).getLast? = some 125
  | [] => rfl
  | kv :: rest2 => by
      rw [show dumpsRest (kv :: rest2) =
        (44 :: 10 :: 32 :: 32 :: dumpsItem kv) ++ dumpsRest rest2 from rfl]
      rw [List.getLast?_append_of_ne_nil _ (by
        cases rest2 <;> simp [dumpsRest])]
      exact dumpsRest_getLast rest2

theorem dumpsObj_getLast (kv : PyStr × PyStr) (rest : List (PyStr × PyStr)) :
    (dumpsObjIndent2 (kv :: rest)).getLast? = some 125 := by
  rw [show dumpsObjIndent2 (kv :: rest) =
    (123 :: 10 :: 32 :: 32 :: dumpsItem kv) ++ dumpsRest rest from rfl]
  rw [List.getLast?_append_of_ne_nil _ (by cases rest <;> simp [dumpsRest])]
  exact dumpsRest_getLast rest

/-- C8: for every manifest supplying the four read fields (as scalar-valued
strings), `gen_packageinfo` produces exactly the indent-2 dump of the
five-field object followed by one newline; parsing that output as JSON
recovers exactly the five keys `app`, `id`, `loc_name`, `vendor`, `version`
with the manifest's `id`, `id`, `title`, `vendor`, `version` values; and the
byte content ends with exactly one trailing newline. -/
theorem packageinfo_roundtrip (m : PyDict) (i t2 ve vr : PyStr)
    (hid : dlookup m (pstr ("id")) = some i)
    (htl : dlookup m (pstr ("title")) = some t2)
    (hvd : dlookup m (pstr ("vendor")) = some ve)
    (hvr : dlookup m (pstr ("version")) = some vr)
    (hvi : ValidPStr i) (hvt : ValidPStr t2) (hvv : ValidPStr ve)
    (hvvr : ValidPStr vr) :
    gen_packageinfo m = .ok (dumpsObjIndent2
      [(pstr ("app"), i), (pstr ("id"), i), (pstr ("loc_name"), t2),
       (pstr ("vendor"), ve), (pstr ("version"), vr)] ++ [10]) ∧
    parseObj (dumpsObjIndent2
      [(pstr ("app"), i), (pstr ("id"), i), (pstr ("loc_name"), t2),
       (pstr ("vendor"), ve), (pstr ("version"), vr)] ++ [10]) =
      some [(pstr ("app"), i), (pstr ("id"), i), (pstr ("loc_name"), t2),
       (pstr ("vendor"), ve), (pstr ("version"), vr)] ∧
    (dumpsObjIndent2
      [(pstr ("app"), i), (pstr ("id"), i), (pstr ("loc_name"), t2),
       (pstr ("vendor"), ve), (pstr ("version"), vr)] ++ [10]).getLast? = some 10 ∧
    (dumpsObjIndent2
      [(pstr ("app"), i), (pstr ("id"), i), (pstr ("loc_name"), t2),
       (pstr ("vendor"), ve), (pstr ("version"), vr)] ++ [10]).dropLast.getLast? ≠
      some 10 := by
  refine ⟨?_, ?_, ?_, ?_⟩
  · rw [gen_packageinfo, hid, htl, hvd, hvr]
    show Except.ok (utf8Encode (replaceCRLF (dumpsObjIndent2
      [(pstr ("app"), i), (pstr ("id"), i), (pstr ("loc_name"), t2),
       (pstr ("vendor"), ve), (pstr ("version"), vr)] ++ [10]))) = _
    rw [replaceCRLF_eq_self _ (by
      intro hmem
      rcases List.mem_append.mp hmem with h | h
      · exact (dumpsObj_mem _ _ h).2 rfl
      · simp at h)]
    rw [utf8_ascii _ (by
      intro b hb
      rcases List.mem_append.mp hb with h | h
      · exact (dumpsObj_mem _ _ h).1
      · simp at h
        omega)]
  · exact parseObj_dumps (pstr ("app")) i
      [(pstr ("id"), i), (pstr ("loc_name"), t2), (pstr ("vendor"), ve),
       (pstr ("version"), vr)]
      (by decide) hvi
      (by
        have hkeys : ValidPStr (pstr ("id")) ∧ ValidPStr (pstr ("loc_name")) ∧
            ValidPStr (pstr ("vendor")) ∧ ValidPStr (pstr ("version")) := by decide
        intro kvx hkvx
        simp only [List.mem_cons, List.not_mem_nil, or_false] at hkvx
        rcases hkvx with rfl | rfl | rfl | rfl
        · exact ⟨hkeys.1, hvi⟩
        · exact ⟨hkeys.2.1, hvt⟩
        · exact ⟨hkeys.2.2.1, hvv⟩
        · exact ⟨hkeys.2.2.2, hvvr⟩)
  · exact List.getLast?_concat _
  · rw [List.dropLast_concat, dumpsObj_getLast]
    simp

/-- Witness for C8 at a concrete four-field manifest. -/
theorem packageinfo_roundtrip_witness :
    gen_packageinfo [(pstr ("id"), pstr ("x.y")), (pstr ("title"), pstr ("T")),
        (pstr ("vendor"), pstr ("V")), (pstr ("version"), pstr ("0.1"))] =
      .ok (dumpsObjIndent2
        [(pstr ("app"), pstr ("x.y")), (pstr ("id"), pstr ("x.y")),
         (pstr ("loc_name"), pstr ("T")), (pstr ("vendor"), pstr ("V")),
         (pstr ("version"), pstr ("0.1"))] ++ [10]) ∧
    parseObj (dumpsObjIndent2
        [(pstr ("app"), pstr ("x.y")), (pstr ("id"), pstr ("x.y")),
         (pstr ("loc_name"), pstr ("T")), (pstr ("vendor"), pstr ("V")),
         (pstr ("version"), pstr ("0.1"))] ++ [10]) =
      some [(pstr ("app"), pstr ("x.y")), (pstr ("id"), pstr ("x.y")),
         (pstr ("loc_name"), pstr ("T")), (pstr ("vendor"), pstr ("V")),
         (pstr ("version"), pstr ("0.1"))] ∧
    (dumpsObjIndent2
        [(pstr ("app"), pstr ("x.y")), (pstr ("id"), pstr ("x.y")),
         (pstr ("loc_name"), pstr ("T")), (pstr ("vendor"), pstr ("V")),
         (pstr ("version"), pstr ("0.1"))] ++ [10]).getLast? = some 10 ∧
    (dumpsObjIndent2
        [(pstr ("app"), pstr ("x.y")), (pstr ("id"), pstr ("x.y")),
         (pstr ("loc_name"), pstr ("T")), (pstr ("vendor"), pstr ("V")),
         (pstr ("version"), pstr ("0.1"))] ++ [10]).dropLast.getLast? ≠ some 10 :=
  packageinfo_roundtrip
    [(pstr ("id"), pstr ("x.y")), (pstr ("title"), pstr ("T")),
     (pstr ("vendor"), pstr ("V")), (pstr ("version"), pstr ("0.1"))]
    (pstr ("x.y")) (pstr ("T")) (pstr ("V")) (pstr ("0.1"))
    (by decide) (by decide) (by decide) (by decide)
    (by decide) (by decide) (by decide) (by decide)

/-- C2 counterexample: for the tree holding a single zero-length file,
`calc_size` returns `0`, while the claim's formula (which counts the root
directory) predicts `4096`, and the claim's "zero only for an empty tree"
clause is violated as well. -/
theorem calc_size_claim_false :
    ¬ (calc_size (Tree.node [(pstr ("f"), [])] []) =
         treeFileBytes (Tree.node [(pstr ("f"), [])] []) +
           DIRECTORY_SIZE * numDirsInclRoot (Tree.node [(pstr ("f"), [])] []) ∧
       (calc_size (Tree.node [(pstr ("f"), [])] []) = 0 →
         treeIsEmpty (Tree.node [(pstr ("f"), [])] []) = true)) := by decide

end WebosIpk
